import Mathlib

/-!
Verification of the deterministic NL-to-SQL core of the MCPServer repository.

The Python sources under `src/core/` are shallowly embedded here:

* `src/core/extraction/entities.py`  → date model, entity extraction
* `src/core/intent/detector.py`      → intent detection
* `src/core/planning/sql_planner.py` → SQL plan construction
* `src/core/planning/sql_validator.py` → plan validation

Python strings are modelled as `String`/`List Char`; Python `float` scores are
modelled as `ℚ`; Python `datetime.date` is modelled by `PyDate` (a raising
`date(...)` constructor is modelled by `Except`); regular-expression scans are
modelled by explicit character scanners that mirror the concrete patterns of
the source, including word boundaries, greedy/lazy repetition and the
non-overlapping left-to-right semantics of `finditer`/`findall`/`search`.
-/

namespace MCP

/-! ### Character classes (ASCII fragment of Python `\w`, `\s`, `str.strip`) -/

def isWordChar (c : Char) : Bool := c.isAlphanum || c = '_'

def isSpaceChar (c : Char) : Bool :=
  c = ' ' || c = '\t' || c = '\n' || c = '\r' || c = '\x0b' || c = '\x0c'

/-- Word boundary against the character immediately to the left (`none` = edge). -/
def boundaryLeft (prev : Option Char) : Bool :=
  match prev with
  | none => true
  | some c => !isWordChar c

/-- `\b` immediately after a word character, looking at the rest of the text. -/
def boundaryRight : List Char → Bool
  | [] => true
  | c :: _ => !isWordChar c

/-! ### Python string primitives -/

def pyStripList (l : List Char) : List Char :=
  ((l.dropWhile isSpaceChar).reverse.dropWhile isSpaceChar).reverse

def pyStrip (s : String) : String := ⟨pyStripList s.data⟩

def lowerList (l : List Char) : List Char := l.map Char.toLower

/-- Accent stripping: NFKD normalisation followed by removal of combining marks,
restricted to the lowercase Latin letters that can occur in the Spanish/English
questions this pipeline handles; every other character is left unchanged. -/
def stripAccentChar (c : Char) : Char :=
  if c = 'á' || c = 'à' || c = 'â' || c = 'ä' then 'a'
  else if c = 'é' || c = 'è' || c = 'ê' || c = 'ë' then 'e'
  else if c = 'í' || c = 'ì' || c = 'î' || c = 'ï' then 'i'
  else if c = 'ó' || c = 'ò' || c = 'ô' || c = 'ö' then 'o'
  else if c = 'ú' || c = 'ù' || c = 'û' || c = 'ü' then 'u'
  else if c = 'ñ' then 'n'
  else if c = 'ç' then 'c'
  else c

def stripAccentsList (l : List Char) : List Char := l.map stripAccentChar

/-- `re.sub(r"\s+", " ", text)`: collapse every whitespace run to one space. -/
def collapseWs (prevSpace : Bool) : List Char → List Char
  | [] => []
  | c :: rest =>
    if isSpaceChar c then
      if prevSpace then collapseWs true rest else ' ' :: collapseWs true rest
    else c :: collapseWs false rest

/-- `str.replace(pat, rep)`: replace every non-overlapping occurrence, left to
right, continuing after the replaced slice.  Fuel-driven so that the kernel
can evaluate it; every recursive call consumes at least one character, so
`l.length + 1` fuel always suffices. -/
def replaceListF : Nat → List Char → List Char → List Char → List Char
  | 0, _, _, l => l
  | _ + 1, _, _, [] => []
  | _ + 1, [], _, l => l
  | fuel + 1, p :: ps, rep, c :: rest =>
    if (p :: ps).isPrefixOf (c :: rest) then
      rep ++ replaceListF fuel (p :: ps) rep (rest.drop ps.length)
    else
      c :: replaceListF fuel (p :: ps) rep rest

def replaceList (pat rep l : List Char) : List Char :=
  replaceListF (l.length + 1) pat rep l

/-- Decimal digit character of `n % 10`-style values `0..9`. -/
def digitChar (n : Nat) : Char :=
  if n = 0 then '0' else if n = 1 then '1' else if n = 2 then '2'
  else if n = 3 then '3' else if n = 4 then '4' else if n = 5 then '5'
  else if n = 6 then '6' else if n = 7 then '7' else if n = 8 then '8' else '9'

def natCharsF : Nat → Nat → List Char
  | 0, _ => []
  | fuel + 1, n =>
    if n < 10 then [digitChar n]
    else natCharsF fuel (n / 10) ++ [digitChar (n % 10)]

/-- Decimal digits of `n` (`str(n)`); `n + 1` fuel suffices since `n / 10`
strictly decreases. -/
def natChars (n : Nat) : List Char := natCharsF (n + 1) n

def natToStr (n : Nat) : String := ⟨natChars n⟩

def intToStr (i : Int) : String :=
  if i < 0 then "-" ++ natToStr i.natAbs else natToStr i.toNat

/-! ### Calendar model (`datetime.date` and the helpers of `entities.py`) -/

structure PyDate where
  year : Int
  month : Nat
  day : Nat
deriving DecidableEq, Repr

/-- Strict lexicographic comparison, matching `datetime.date` ordering. -/
def PyDate.lt (a b : PyDate) : Prop :=
  a.year < b.year ∨ (a.year = b.year ∧
    (a.month < b.month ∨ (a.month = b.month ∧ a.day < b.day)))

instance (a b : PyDate) : Decidable (a.lt b) := by
  unfold PyDate.lt; infer_instance

/-- `a <= b` on dates (used by `_extract_between_ranges` as `end <= left`). -/
def PyDate.bleD (a b : PyDate) : Bool := !(decide (PyDate.lt b a))

/-- `_is_leap_year`. Python `%` on a positive modulus agrees with `Int.emod`. -/
def isLeapYear (y : Int) : Bool :=
  y % 4 = 0 && (y % 100 ≠ 0 || y % 400 = 0)

/-- `_last_day_of_month`. -/
def lastDayOfMonth (y : Int) (m : Nat) : Nat :=
  if m = 1 || m = 3 || m = 5 || m = 7 || m = 8 || m = 10 || m = 12 then 31
  else if m = 4 || m = 6 || m = 9 || m = 11 then 30
  else if isLeapYear y then 29 else 28

/-- `_next_month`. -/
def nextMonth (y : Int) (m : Nat) : Int × Nat :=
  if m = 12 then (y + 1, 1) else (y, m + 1)

/-- `date + timedelta(days=1)` for the calendar dates this pipeline builds. -/
def PyDate.nextDay (d : PyDate) : PyDate :=
  if d.day < lastDayOfMonth d.year d.month then ⟨d.year, d.month, d.day + 1⟩
  else if d.month < 12 then ⟨d.year, d.month + 1, 1⟩
  else ⟨d.year + 1, 1, 1⟩

/-- `date - timedelta(days=1)`. -/
def PyDate.prevDay (d : PyDate) : PyDate :=
  if 1 < d.day then ⟨d.year, d.month, d.day - 1⟩
  else if 1 < d.month then ⟨d.year, d.month - 1, lastDayOfMonth d.year (d.month - 1)⟩
  else ⟨d.year - 1, 12, 31⟩

/-- The invariant `datetime.date` enforces on construction. -/
def PyDate.Valid (d : PyDate) : Prop :=
  1 ≤ d.year ∧ d.year ≤ 9999 ∧ 1 ≤ d.month ∧ d.month ≤ 12 ∧
    1 ≤ d.day ∧ d.day ≤ lastDayOfMonth d.year d.month

instance (d : PyDate) : Decidable d.Valid := by
  unfold PyDate.Valid; infer_instance

/-- `_quarter_bounds`. -/
def quarterBounds (y : Int) (q : Nat) : PyDate × PyDate :=
  if q = 1 then (⟨y, 1, 1⟩, ⟨y, 4, 1⟩)
  else if q = 2 then (⟨y, 4, 1⟩, ⟨y, 7, 1⟩)
  else if q = 3 then (⟨y, 7, 1⟩, ⟨y, 10, 1⟩)
  else (⟨y, 10, 1⟩, ⟨y + 1, 1, 1⟩)

/-- `_safe_date`: clamp the day into range, then build a `date`; the `date`
constructor raises `ValueError` when the month is out of range, which nothing
in `entities.py` catches, so the error propagates. -/
def safeDate (y : Int) (m d : Nat) : Except String PyDate :=
  let maxd := lastDayOfMonth y m
  let dd := min (max d 1) maxd
  if 1 ≤ m ∧ m ≤ 12 then .ok ⟨y, m, dd⟩
  else .error "month must be in 1..12"

/-- `date.toordinal`, used to model `(end - start).days`. -/
def daysBeforeMonth (y : Int) (m : Nat) : Int :=
  let base : Int :=
    if m ≤ 1 then 0 else if m = 2 then 31 else if m = 3 then 59
    else if m = 4 then 90 else if m = 5 then 120 else if m = 6 then 151
    else if m = 7 then 181 else if m = 8 then 212 else if m = 9 then 243
    else if m = 10 then 273 else if m = 11 then 304 else 334
  if 2 < m ∧ isLeapYear y then base + 1 else base

def PyDate.toOrdinal (d : PyDate) : Int :=
  365 * (d.year - 1) + (d.year - 1).fdiv 4 - (d.year - 1).fdiv 100
    + (d.year - 1).fdiv 400 + daysBeforeMonth d.year d.month + (d.day : Int)

/-- `(b - a).days`. -/
def dateDiffDays (b a : PyDate) : Int := b.toOrdinal - a.toOrdinal

/-- `date.isoformat()`: `YYYY-MM-DD`, zero padded. -/
def pad2 (n : Nat) : String := if n < 10 then "0" ++ natToStr n else natToStr n

def pad4 (n : Nat) : String :=
  (if n < 10 then "000" else if n < 100 then "00" else if n < 1000 then "0" else "")
    ++ natToStr n

def PyDate.isoformat (d : PyDate) : String :=
  pad4 d.year.toNat ++ "-" ++ pad2 d.month ++ "-" ++ pad2 d.day

/-- `sep.join(parts)`. -/
def joinSep (sep : String) : List String → String
  | [] => ""
  | [x] => x
  | x :: y :: rest => x ++ sep ++ joinSep sep (y :: rest)

/-! ### Entity extraction (`src/core/extraction/entities.py`) -/

inductive DateGranularity
  | DAY | MONTH | QUARTER | YEAR | RANGE | UNKNOWN
deriving DecidableEq, Repr

/-- Half-open date range `[start, end)`; the exclusive end is `end_`. -/
structure DateRange where
  start : PyDate
  end_ : PyDate
  label : String
deriving DecidableEq, Repr

structure ExtractedEntities where
  normalized_question : String
  date_ranges : List DateRange
  date_granularity : DateGranularity
  statuses : List String
  limit : Option Int
  order_hint : Option String
  reasons : List String
deriving DecidableEq, Repr

/-- `entities._normalize`: strip, lowercase, strip accents, collapse runs of
whitespace to a single space. -/
def entNormalizeL (l : List Char) : List Char :=
  collapseWs false (stripAccentsList (lowerList (pyStripList l)))

/-- The `_MONTHS` dictionary (keys with `_` suffixes model the English
disambiguation aliases that are never produced by the lookups below). -/
def monthsTable : List (String × Nat) :=
  [("enero", 1), ("febrero", 2), ("marzo", 3), ("abril", 4), ("mayo", 5),
   ("junio", 6), ("julio", 7), ("agosto", 8), ("septiembre", 9),
   ("setiembre", 9), ("octubre", 10), ("noviembre", 11), ("diciembre", 12),
   ("ene", 1), ("feb", 2), ("mar", 3), ("abr", 4), ("may", 5), ("jun", 6),
   ("jul", 7), ("ago", 8), ("sep", 9), ("set", 9), ("oct", 10), ("nov", 11),
   ("dic", 12),
   ("january", 1), ("february", 2), ("march", 3), ("april", 4), ("may_en", 5),
   ("june", 6), ("july", 7), ("august", 8), ("september", 9), ("october", 10),
   ("november", 11), ("december", 12),
   ("jan", 1), ("feb_en", 2), ("mar_en", 3), ("apr", 4), ("may_abbr", 5),
   ("jun_en", 6), ("jul_en", 7), ("aug", 8), ("sep_en", 9), ("oct_en", 10),
   ("nov_en", 11), ("dec", 12)]

/-- `_MONTHS.get(key, 0)`. -/
def monthsGet (k : String) : Nat :=
  (((monthsTable.find? (fun p => p.1 = k)).map (fun p => p.2))).getD 0

/-- The month-name alternation of `_extract_month_year` (dictionary keys
without `_`, alphabetic, length ≥ 3, plus the Spanish abbreviations), sorted
longest first exactly as the source sorts it; among equal lengths the order is
irrelevant because two distinct literals of one length cannot both match at a
position. -/
def monthAlts : List String :=
  ["septiembre",
   "diciembre", "noviembre", "september", "setiembre",
   "december", "february", "november",
   "january", "febrero", "octubre", "october",
   "agosto", "august",
   "abril", "april", "enero", "julio", "junio", "march", "marzo",
   "july", "june", "mayo",
   "abr", "ago", "apr", "aug", "dec", "dic", "ene", "feb", "jan", "jul",
   "jun", "mar", "may", "nov", "oct", "sep", "set"]

/-- If `pat` is a literal prefix of `l`, return the rest of `l`. -/
def stripPre (pat : List Char) (l : List Char) : Option (List Char) :=
  if pat.isPrefixOf l then some (l.drop pat.length) else none

/-- First alternative (in list order) that is a literal prefix of `l`;
returns the matched literal and the rest. -/
def firstAlt (alts : List String) (l : List Char) : Option (String × List Char) :=
  match alts with
  | [] => none
  | a :: more =>
    match stripPre a.data l with
    | some rest => some (a, rest)
    | none => firstAlt more l

def skipSpaces (l : List Char) : List Char := l.dropWhile isSpaceChar

def digVal (c : Char) : Nat := c.toNat - 48

/-- `(?:19|20)\d{2}`: four digits starting `19` or `20`; returns the value,
the last matched character and the rest. -/
def takeYear : List Char → Option (Nat × Char × List Char)
  | c1 :: c2 :: c3 :: c4 :: rest =>
    if ((c1 = '1' && c2 = '9') || (c1 = '2' && c2 = '0')) && c3.isDigit && c4.isDigit then
      some (1000 * digVal c1 + 100 * digVal c2 + 10 * digVal c3 + digVal c4, c4, rest)
    else none
  | _ => none

/-- Maximal digit run of length `1..2` that must be followed by the literal
`sep` (the backtracking residue of greedy `\d{1,2}` before a fixed letter). -/
def take2DigitsThen (sep : Char) : List Char → Option (Nat × List Char)
  | l =>
    let run := l.takeWhile Char.isDigit
    let rest := l.drop run.length
    if run.length = 0 || 2 < run.length then none
    else match rest with
      | c :: r2 => if c = sep then some ((run.map digVal).foldl (fun a d => 10 * a + d) 0, r2) else none
      | [] => none

/-- Maximal digit run of length `1..2` followed by a word boundary
(`\d{1,2}\b`); greedy with the boundary check, shorter backtracks cannot
succeed because the next character would be a digit. -/
def take2DigitsBoundary : List Char → Option (Nat × Char × List Char)
  | l =>
    let run := l.takeWhile Char.isDigit
    let rest := l.drop run.length
    if run.length = 0 || 2 < run.length then none
    else if boundaryRight rest then
      some ((run.map digVal).foldl (fun a d => 10 * a + d) 0, run.getLastD '0', rest)
    else none

/-- Fuel-driven left-to-right scan modelling `re.finditer`: `step prev l`
attempts a match at the head of `l` (`prev` is the character before `l`); on
success the scan resumes after the matched slice (`rest`), otherwise it
advances one character.  Every step consumes at least one character, so
`l.length + 1` fuel always suffices. -/
def scanFuel (step : Option Char → List Char → Option (α × Char × List Char)) :
    Nat → Option Char → List Char → List α
  | 0, _, _ => []
  | _ + 1, _, [] => []
  | fuel + 1, prev, c :: rest =>
    match step prev (c :: rest) with
    | some (a, lastc, rest') => a :: scanFuel step fuel (some lastc) rest'
    | none => scanFuel step fuel (some c) rest

def runScan (step : Option Char → List Char → Option (α × Char × List Char))
    (l : List Char) : List α :=
  scanFuel step (l.length + 1) none l

/-- One match of `\b(19|20)\d{2}\b` (`_extract_years`). -/
def yearStep (prev : Option Char) (l : List Char) : Option (DateRange × Char × List Char) :=
  if boundaryLeft prev then
    match takeYear l with
    | some (y, lastc, rest) =>
      if boundaryRight rest then
        some (⟨⟨(y : Int), 1, 1⟩, ⟨(y : Int) + 1, 1, 1⟩, natToStr y⟩, lastc, rest)
      else none
    | none => none
  else none

/-- `_extract_years`. -/
def extractYears (l : List Char) : List DateRange := runScan yearStep l

/-- `\s*(?:de|del)?\s*` then a year: the connector residue of
`_extract_month_year` (and, with only `de`, of the quarter patterns).
`allowDel` selects whether `del` is an alternative. -/
def connectorYear (allowDel : Bool) (l : List Char) : Option (Nat × Char × List Char) :=
  let l1 := skipSpaces l
  let tryYear : List Char → Option (Nat × Char × List Char) := fun r =>
    match takeYear r with
    | some (y, lastc, rest) => if boundaryRight rest then some (y, lastc, rest) else none
    | none => none
  match (if allowDel then stripPre ['d', 'e', 'l'] l1 else none) with
  | some r => tryYear (skipSpaces r)
  | none =>
    match stripPre ['d', 'e'] l1 with
    | some r =>
      match tryYear (skipSpaces r) with
      | some res => some res
      | none => tryYear l1
    | none => tryYear l1

/-- One match of the `_extract_month_year` pattern. -/
def monthYearStep (prev : Option Char) (l : List Char) :
    Option (Option DateRange × Char × List Char) :=
  if boundaryLeft prev then
    match firstAlt monthAlts l with
    | some (raw, r1) =>
      match connectorYear true r1 with
      | some (y, lastc, rest) =>
        let monKey := stripAccentsList (lowerList (pyStripList
          (replaceList ['m', 'a', 'y'] ['m', 'a', 'y', 'o'] raw.data)))
        let mon := monthsGet ⟨monKey⟩
        if mon = 0 then some (none, lastc, rest)
        else
          let (ny, nm) := nextMonth (y : Int) mon
          some (some ⟨⟨(y : Int), mon, 1⟩, ⟨ny, nm, 1⟩, raw ++ " " ++ natToStr y⟩,
            lastc, rest)
      | none => none
    | none => none
  else none

/-- `_extract_month_year`. -/
def extractMonthYear (l : List Char) : List DateRange :=
  (runScan monthYearStep l).filterMap id

def mkQuarterRange (q : Nat) (y : Nat) : DateRange :=
  let (s, e) := quarterBounds (y : Int) q
  ⟨s, e, "Q" ++ natToStr q ++ " " ++ natToStr y⟩

def quarterDigit : List Char → Option (Nat × List Char)
  | c :: rest =>
    if c = '1' || c = '2' || c = '3' || c = '4' then some (digVal c, rest) else none
  | [] => none

/-- `\b(?:q|t)\s*([1-4])\s*((?:19|20)\d{2})\b` (first quarter pattern). -/
def quarterStep1 (prev : Option Char) (l : List Char) :
    Option (DateRange × Char × List Char) :=
  if boundaryLeft prev then
    match l with
    | c :: r1 =>
      if c = 'q' || c = 't' then
        match quarterDigit (skipSpaces r1) with
        | some (q, r2) =>
          match takeYear (skipSpaces r2) with
          | some (y, lastc, rest) =>
            if boundaryRight rest then some (mkQuarterRange q y, lastc, rest) else none
          | none => none
        | none => none
      else none
    | [] => none
  else none

/-- `\b(?:([1-4])(?:er|o)?\s+trimestre)\s*(?:de)?\s*((?:19|20)\d{2})\b`. -/
def quarterStep2 (prev : Option Char) (l : List Char) :
    Option (DateRange × Char × List Char) :=
  if boundaryLeft prev then
    match quarterDigit l with
    | some (q, r1) =>
      let r2 :=
        match stripPre ['e', 'r'] r1 with
        | some r => r
        | none => match stripPre ['o'] r1 with
          | some r => r
          | none => r1
      let r3 := skipSpaces r2
      if r3.length < r2.length then
        match stripPre ['t', 'r', 'i', 'm', 'e', 's', 't', 'r', 'e'] r3 with
        | some r4 =>
          match connectorYear false r4 with
          | some (y, lastc, rest) => some (mkQuarterRange q y, lastc, rest)
          | none => none
        | none => none
      else none
    | none => none
  else none

/-- `\btrimestre\s*([1-4])\s*(?:de)?\s*((?:19|20)\d{2})\b`. -/
def quarterStep3 (prev : Option Char) (l : List Char) :
    Option (DateRange × Char × List Char) :=
  if boundaryLeft prev then
    match stripPre ['t', 'r', 'i', 'm', 'e', 's', 't', 'r', 'e'] l with
    | some r1 =>
      match quarterDigit (skipSpaces r1) with
      | some (q, r2) =>
        match connectorYear false r2 with
        | some (y, lastc, rest) => some (mkQuarterRange q y, lastc, rest)
        | none => none
      | none => none
    | none => none
  else none

/-- `_extract_quarters`: the three patterns run one after another. -/
def extractQuarters (l : List Char) : List DateRange :=
  runScan quarterStep1 l ++ runScan quarterStep2 l ++ runScan quarterStep3 l

/-- Day clamping of `_safe_date` (the part before the raising constructor). -/
def clampDate (y : Int) (m d : Nat) : PyDate :=
  ⟨y, m, min (max d 1) (lastDayOfMonth y m)⟩

/-- One match of `\b(?:19|20)\d{2}-\d{1,2}-\d{1,2}\b`: returns `(y, m, d)`. -/
def isoStep (prev : Option Char) (l : List Char) :
    Option ((Nat × Nat × Nat) × Char × List Char) :=
  if boundaryLeft prev then
    match takeYear l with
    | some (y, _, r1) =>
      match r1 with
      | '-' :: r2 =>
        match take2DigitsThen '-' r2 with
        | some (m, r3) =>
          match take2DigitsBoundary r3 with
          | some (d, lastc, rest) => some ((y, m, d), lastc, rest)
          | none => none
        | none => none
      | _ => none
    | none => none
  else none

/-- One match of `\b\d{1,2}/\d{1,2}/(?:19|20)\d{2}\b`: returns `(d, m, y)`. -/
def ddmmStep (prev : Option Char) (l : List Char) :
    Option ((Nat × Nat × Nat) × Char × List Char) :=
  if boundaryLeft prev then
    match take2DigitsThen '/' l with
    | some (d, r1) =>
      match take2DigitsThen '/' r1 with
      | some (m, r2) =>
        match takeYear r2 with
        | some (y, lastc, rest) =>
          if boundaryRight rest then some ((d, m, y), lastc, rest) else none
        | none => none
      | none => none
    | none => none
  else none

/-- Shared tail of the `"1 de enero de 2025"` pattern after the day digits:
`\s*(?:de\s*)?([a-zA-Z]+)\s*(?:de\s*)?((?:19|20)\d{2})`; returns the month
word and the year.  Greedy `[a-zA-Z]+` needs no shorter backtracks: a year
starts with a digit, so giving letters back can never help. -/
def textualTail (l : List Char) : Option ((List Char × Nat) × Char × List Char) :=
  let r1 := skipSpaces l
  let lettersFrom : List Char → Option ((List Char × Nat) × Char × List Char) := fun r =>
    let letters := r.takeWhile Char.isAlpha
    if letters.length = 0 then none
    else
      let r2 := skipSpaces (r.drop letters.length)
      let withYear : List Char → Option (Nat × Char × List Char) := fun rr =>
        match takeYear rr with
        | some (y, lastc, rest) =>
          if boundaryRight rest then some (y, lastc, rest) else none
        | none => none
      match stripPre ['d', 'e'] r2 with
      | some r3 =>
        match withYear (skipSpaces r3) with
        | some (y, lastc, rest) => some ((letters, y), lastc, rest)
        | none =>
          match withYear r2 with
          | some (y, lastc, rest) => some ((letters, y), lastc, rest)
          | none => none
      | none =>
        match withYear r2 with
        | some (y, lastc, rest) => some ((letters, y), lastc, rest)
        | none => none
  match stripPre ['d', 'e'] r1 with
  | some rA =>
    match lettersFrom (skipSpaces rA) with
    | some res => some res
    | none => lettersFrom r1
  | none => lettersFrom r1

/-- One match of `\b\d{1,2}\s*(?:de\s*)?[a-zA-Z]+\s*(?:de\s*)?(?:19|20)\d{2}\b`:
returns `(dd, month word, y)`. -/
def textualStep (prev : Option Char) (l : List Char) :
    Option ((Nat × List Char × Nat) × Char × List Char) :=
  if boundaryLeft prev then
    let run := l.takeWhile Char.isDigit
    if run.length = 0 || 2 < run.length then none
    else
      let dd := (run.map digVal).foldl (fun a d => 10 * a + d) 0
      match textualTail (l.drop run.length) with
      | some ((letters, y), lastc, rest) => some ((dd, letters, y), lastc, rest)
      | none => none
  else none

/-- `_parse_d_de_month_de_y` applied to a matched slice: month lookup after
accent stripping, lowering and the `may → mayo` rewrite; unknown month → no
date; `_safe_date` cannot raise here because table months lie in `1..12`. -/
def parseTextualTriple (t : Nat × List Char × Nat) : Option PyDate :=
  let (dd, letters, y) := t
  let monKey := replaceList ['m', 'a', 'y'] ['m', 'a', 'y', 'o']
    (stripAccentsList (lowerList letters))
  let mon := monthsGet ⟨monKey⟩
  if mon = 0 then none else some (clampDate (y : Int) mon dd)

/-- `_extract_explicit_dates`: ISO tokens, then `DD/MM/YYYY` tokens, then
textual Spanish dates; a `_safe_date` failure (month out of `1..12`) raises. -/
def extractExplicitDates (l : List Char) : Except String (List PyDate) := do
  let isoT := runScan isoStep l
  let a ← isoT.foldlM (fun acc t => do
    let d ← safeDate (t.1 : Int) t.2.1 t.2.2
    pure (acc ++ [d])) []
  let ddT := runScan ddmmStep l
  let b ← ddT.foldlM (fun acc t => do
    let d ← safeDate (t.2.2 : Int) t.2.1 t.1
    pure (acc ++ [d])) []
  let txT := runScan textualStep l
  pure (a ++ b ++ txT.filterMap parseTextualTriple)

/-- Fullmatch of `((?:19|20)\d{2})-(\d{1,2})-(\d{1,2})` (`_parse_iso_date`
before `_safe_date`): the whole string must be consumed. -/
def isoFullShape (l : List Char) : Option (Nat × Nat × Nat) :=
  match takeYear l with
  | some (y, _, r1) =>
    match r1 with
    | '-' :: r2 =>
      match take2DigitsThen '-' r2 with
      | some (m, r3) =>
        let run := r3.takeWhile Char.isDigit
        if run.length = 0 || 2 < run.length || r3.drop run.length ≠ [] then none
        else some (y, m, (run.map digVal).foldl (fun a d => 10 * a + d) 0)
      | none => none
    | _ => none
  | none => none

/-- Fullmatch of `(\d{1,2})/(\d{1,2})/((?:19|20)\d{2})` (`_parse_dd_mm_yyyy`
before `_safe_date`). -/
def ddmmFullShape (l : List Char) : Option (Nat × Nat × Nat) :=
  match take2DigitsThen '/' l with
  | some (d, r1) =>
    match take2DigitsThen '/' r1 with
    | some (m, r2) =>
      match takeYear r2 with
      | some (y, _, rest) => if rest = [] then some (d, m, y) else none
      | none => none
    | none => none
  | none => none

/-- `_parse_iso_date`: `None` when the shape does not match, otherwise
`_safe_date` (which raises on an out-of-range month). -/
def parseIsoDate (l : List Char) : Except String (Option PyDate) :=
  match isoFullShape l with
  | none => .ok none
  | some (y, m, d) => (safeDate (y : Int) m d).map some

/-- `_parse_dd_mm_yyyy`. -/
def parseDdMmYyyy (l : List Char) : Except String (Option PyDate) :=
  match ddmmFullShape l with
  | none => .ok none
  | some (d, m, y) => (safeDate (y : Int) m d).map some

/-- Fullmatch of `(\d{1,2})\s*(?:de\s*)?([a-zA-Z]+)\s*(?:de\s*)?((?:19|20)\d{2})`
(`_parse_d_de_month_de_y`): reuse the scanner tail and require the rest to be
empty. -/
def parseDMonthY (l : List Char) : Option PyDate :=
  let run := l.takeWhile Char.isDigit
  if run.length = 0 || 2 < run.length then none
  else
    let dd := (run.map digVal).foldl (fun a d => 10 * a + d) 0
    match textualTail (l.drop run.length) with
    | some ((letters, y), _, rest) =>
      if rest = [] then parseTextualTriple (dd, letters, y) else none
    | none => none

/-- `candidates_left`/`candidates_right` of `_extract_between_ranges`: all
three parsers are evaluated (a raise in any propagates), then the first
successful one wins. -/
def parseCandidates (l : List Char) : Except String (Option PyDate) := do
  let a ← parseIsoDate l
  let b ← parseDdMmYyyy l
  let c := parseDMonthY l
  pure (a <|> b <|> c)

/-- `\s+(?:y|al|hasta)\s+` starting after the split space: the connector word
and its trailing space. -/
def stripKw2 (l : List Char) : Option (List Char) :=
  match stripPre ['y', ' '] l with
  | some r => some r
  | none =>
    match stripPre ['a', 'l', ' '] l with
    | some r => some r
    | none => stripPre ['h', 'a', 's', 't', 'a', ' '] l

/-- All candidate delimiter positions of the between pattern, earliest first:
each entry is the text before the delimiter (the lazy `(.+?)` candidate) and
the text after the connector's trailing space. -/
def findSplits : List Char → List (List Char × List Char)
  | [] => []
  | c :: rest =>
    let tailSplits := (findSplits rest).map (fun p => (c :: p.1, p.2))
    if c = ' ' then
      match stripKw2 rest with
      | some after => ([], after) :: tailSplits
      | none => tailSplits
    else tailSplits

/-- Lazy `(.+?)\b` on text whose first character is `prevc`: the shortest
nonempty prefix ending at a word boundary; returns the tail of the group, the
last character of the group and the rest. -/
def grp2Aux (prevc : Char) : List Char → Option (List Char × Char × List Char)
  | [] => if isWordChar prevc then some ([], prevc, []) else none
  | c :: rest =>
    if isWordChar prevc ≠ isWordChar c then some ([], prevc, c :: rest)
    else (grp2Aux c rest).map (fun p => (c :: p.1, p.2.1, p.2.2))

def grp2 : List Char → Option (List Char × Char × List Char)
  | [] => none
  | c :: rest => (grp2Aux c rest).map (fun p => (c :: p.1, p.2.1, p.2.2))

/-- Backtracking over delimiter candidates: the regex grows the lazy first
group past a delimiter whose right-hand side has no word boundary. -/
def firstBetweenGroups : List (List Char × List Char) →
    Option (List Char × List Char × Char × List Char)
  | [] => none
  | (g1, after) :: more =>
    if g1 = [] then firstBetweenGroups more
    else
      match grp2 after with
      | some (g2, lastc, rest) => some (g1, g2, lastc, rest)
      | none => firstBetweenGroups more

/-- One match of `\b(?:entre|del|desde)\s+(.+?)\s+(?:y|al|hasta)\s+(.+?)\b`. -/
def betweenStep (prev : Option Char) (l : List Char) :
    Option ((List Char × List Char) × Char × List Char) :=
  if boundaryLeft prev then
    match firstAlt ["entre", "del", "desde"] l with
    | some (_, r1) =>
      let r2 := skipSpaces r1
      if r2.length < r1.length then
        match firstBetweenGroups (findSplits r2) with
        | some (g1, g2, lastc, rest) => some ((g1, g2), lastc, rest)
        | none => none
      else none
    | none => none
  else none

def mkBetweenRange (g1 g2 : List Char) (left right : PyDate) : DateRange :=
  let e0 := right.nextDay
  let lab := (⟨g1⟩ : String) ++ " — " ++ (⟨g2⟩ : String)
  if e0.bleD left then ⟨right, left.nextDay, lab⟩ else ⟨left, e0, lab⟩

/-- `_extract_between_ranges`: fuel-driven `finditer` loop; parse failures of
either side skip the match, `_safe_date` raises propagate. -/
def scanBetween : Nat → Option Char → List Char → Except String (List DateRange)
  | 0, _, _ => .ok []
  | _ + 1, _, [] => .ok []
  | fuel + 1, prev, c :: rest =>
    match betweenStep prev (c :: rest) with
    | none => scanBetween fuel (some c) rest
    | some ((g1, g2), lastc, rest') => do
      let g1s := pyStripList g1
      let g2s := pyStripList g2
      let leftOpt ← parseCandidates g1s
      let rightOpt ← parseCandidates g2s
      let tailRs ← scanBetween fuel (some lastc) rest'
      match leftOpt, rightOpt with
      | some left, some right => pure (mkBetweenRange g1s g2s left right :: tailRs)
      | _, _ => pure tailRs

def extractBetweenRanges (l : List Char) : Except String (List DateRange) :=
  scanBetween (l.length + 1) none l

/-! #### Relative periods (`_extract_relative_periods`) -/

/-- `re.search(r"\b<literal>\b", text)` for a literal of word characters and
single spaces. -/
def wordSearch (pat : List Char) : Option Char → List Char → Bool
  | _, [] => false
  | prev, c :: rest =>
    (boundaryLeft prev && pat.isPrefixOf (c :: rest) &&
      boundaryRight ((c :: rest).drop pat.length))
    || wordSearch pat (some c) rest

def containsWordS (pat : String) (l : List Char) : Bool := wordSearch pat.data none l

def containsAnyWord (pats : List String) (l : List Char) : Bool :=
  pats.any (fun p => containsWordS p l)

/-- The ranges appended by `_extract_relative_periods`, in source order; the
pattern `\beste (a|an)o\b` matches both `este ao` and `este ano`, and so on. -/
def relRanges (t : List Char) (today : PyDate) : List DateRange :=
  (if containsWordS "hoy" t then [⟨today, today.nextDay, "hoy"⟩] else [])
  ++ (if containsWordS "ayer" t then [⟨today.prevDay, today, "ayer"⟩] else [])
  ++ (if containsWordS "manana" t then
        [⟨today.nextDay, today.nextDay.nextDay, "manana"⟩] else [])
  ++ (if containsAnyWord ["este ao", "este ano"] t then
        [⟨⟨today.year, 1, 1⟩, ⟨today.year + 1, 1, 1⟩,
          "este ano " ++ intToStr today.year⟩] else [])
  ++ (if containsAnyWord ["el ao pasado", "el ano pasado"] t then
        [⟨⟨today.year - 1, 1, 1⟩, ⟨today.year, 1, 1⟩,
          "ano pasado " ++ intToStr (today.year - 1)⟩] else [])
  ++ (if containsAnyWord ["el proximo ao", "el proximo ano"] t then
        [⟨⟨today.year + 1, 1, 1⟩, ⟨today.year + 2, 1, 1⟩,
          "proximo ano " ++ intToStr (today.year + 1)⟩] else [])
  ++ (if containsWordS "este mes" t then
        (let (ny, nm) := nextMonth today.year today.month
         [⟨⟨today.year, today.month, 1⟩, ⟨ny, nm, 1⟩, "este mes"⟩]) else [])
  ++ (if containsWordS "el mes pasado" t then
        (let (py, pm) := if today.month = 1 then (today.year - 1, 12)
                         else (today.year, today.month - 1)
         let (ny, nm) := nextMonth py pm
         [⟨⟨py, pm, 1⟩, ⟨ny, nm, 1⟩, "mes pasado"⟩]) else [])
  ++ (if containsWordS "el proximo mes" t then
        (let (y1, m1) := nextMonth today.year today.month
         let (ny, nm) := nextMonth y1 m1
         [⟨⟨y1, m1, 1⟩, ⟨ny, nm, 1⟩, "proximo mes"⟩]) else [])
  ++ (if containsWordS "este trimestre" t then
        (let q := (today.month - 1) / 3 + 1
         let (s, e) := quarterBounds today.year q
         [⟨s, e, "este trimestre Q" ++ natToStr q⟩]) else [])
  ++ (if containsWordS "el trimestre pasado" t then
        (let q0 := (today.month - 1) / 3 + 1
         let (y, q) := if q0 = 1 then (today.year - 1, 4) else (today.year, q0 - 1)
         let (s, e) := quarterBounds y q
         [⟨s, e, "trimestre pasado Q" ++ natToStr q ++ " " ++ intToStr y⟩]) else [])

/-- The reasons of `_extract_relative_periods`, in source order. -/
def relReasons (t : List Char) : List String :=
  (if containsWordS "hoy" t then ["rel:hoy"] else [])
  ++ (if containsWordS "ayer" t then ["rel:ayer"] else [])
  ++ (if containsWordS "manana" t then ["rel:manana"] else [])
  ++ (if containsAnyWord ["este ao", "este ano"] t then ["rel:este_ano"] else [])
  ++ (if containsAnyWord ["el ao pasado", "el ano pasado"] t then ["rel:ano_pasado"] else [])
  ++ (if containsAnyWord ["el proximo ao", "el proximo ano"] t then ["rel:proximo_ano"] else [])
  ++ (if containsWordS "este mes" t then ["rel:este_mes"] else [])
  ++ (if containsWordS "el mes pasado" t then ["rel:mes_pasado"] else [])
  ++ (if containsWordS "el proximo mes" t then ["rel:proximo_mes"] else [])
  ++ (if containsWordS "este trimestre" t then ["rel:este_trimestre"] else [])
  ++ (if containsWordS "el trimestre pasado" t then ["rel:trimestre_pasado"] else [])

/-- The granularity variable of `_extract_relative_periods` (last assignment
wins; it is computed by the source but unused by `extract_entities`). -/
def relGran (t : List Char) : Option DateGranularity :=
  if containsWordS "el trimestre pasado" t then some .QUARTER
  else if containsWordS "este trimestre" t then some .QUARTER
  else if containsWordS "el proximo mes" t then some .MONTH
  else if containsWordS "el mes pasado" t then some .MONTH
  else if containsWordS "este mes" t then some .MONTH
  else if containsAnyWord ["el proximo ao", "el proximo ano"] t then some .YEAR
  else if containsAnyWord ["el ao pasado", "el ano pasado"] t then some .YEAR
  else if containsAnyWord ["este ao", "este ano"] t then some .YEAR
  else if containsWordS "manana" t then some .DAY
  else if containsWordS "ayer" t then some .DAY
  else if containsWordS "hoy" t then some .DAY
  else none

/-! #### Statuses, limit and order -/

def statusVocab : List String :=
  ["programada", "pendiente", "confirmada", "completada", "realizada",
   "cancelada", "rechazada", "reprogramada", "no_show", "ausente", "en_proceso"]

def isStatusTokenChar (c : Char) : Bool :=
  ('a' ≤ c && c ≤ 'z') || c.isDigit || c = '_'

/-- `re.findall(r"[a-z0-9_]+", text)`: the maximal runs (fuel-driven,
`l.length + 1` fuel suffices). -/
def tokenizeStatusF : Nat → List Char → List String
  | 0, _ => []
  | _ + 1, [] => []
  | fuel + 1, c :: rest =>
    if isStatusTokenChar c then
      let run := rest.takeWhile isStatusTokenChar
      (⟨c :: run⟩ : String) :: tokenizeStatusF fuel (rest.drop run.length)
    else tokenizeStatusF fuel rest

def tokenizeStatus (l : List Char) : List String := tokenizeStatusF (l.length + 1) l

/-- One match of `\bestad(?:o|us)\s*[:=]\s*([a-z0-9_]+)\b`. -/
def statusKvStep (prev : Option Char) (l : List Char) :
    Option (String × Char × List Char) :=
  if boundaryLeft prev then
    match stripPre ['e', 's', 't', 'a', 'd'] l with
    | some r0 =>
      let r1 :=
        match stripPre ['o'] r0 with
        | some r => some r
        | none => stripPre ['u', 's'] r0
      match r1 with
      | some r2 =>
        match skipSpaces r2 with
        | c :: r3 =>
          if c = ':' || c = '=' then
            let r4 := skipSpaces r3
            let run := r4.takeWhile isStatusTokenChar
            if run.length = 0 then none
            else
              let rest := r4.drop run.length
              if boundaryRight rest then
                some (⟨run⟩, run.getLastD '0', rest)
              else none
          else none
        | [] => none
      | none => none
    | none => none
  else none

def dedupStr (seen : List String) : List String → List String
  | [] => []
  | s :: rest =>
    if s ∈ seen then dedupStr seen rest else s :: dedupStr (s :: seen) rest

/-- `_extract_statuses`: key-value matches, then vocabulary tokens not already
found, then order-preserving dedup. -/
def extractStatuses (l : List Char) : List String :=
  let kv := runScan statusKvStep l
  let toks := tokenizeStatus l
  let found := toks.foldl
    (fun acc t => if t ∈ statusVocab ∧ t ∉ acc then acc ++ [t] else acc) kv
  dedupStr [] found

/-- `\s*(\d{1,5})\b` after a limit keyword: maximal run of `1..5` digits
followed by a word boundary. -/
def limitDigits (l : List Char) : Option Nat :=
  let r := skipSpaces l
  let run := r.takeWhile Char.isDigit
  if run.length = 0 || 5 < run.length then none
  else if boundaryRight (r.drop run.length) then
    some ((run.map digVal).foldl (fun a d => 10 * a + d) 0)
  else none

/-- `re.search` for `\b<alts>\s*(\d{1,5})\b`: first position wins. -/
def limitSearch (alts : List String) : Option Char → List Char → Option Nat
  | _, [] => none
  | prev, c :: rest =>
    (if boundaryLeft prev then
      match firstAlt alts (c :: rest) with
      | some (_, r1) => limitDigits r1
      | none => none
     else none)
    |>.orElse (fun _ => limitSearch alts (some c) rest)

/-- `_extract_limit_and_order`: the three patterns in order; a match with a
non-positive number falls through to the next pattern. -/
def extractLimitOrder (l : List Char) : Option Int × Option String × Option String :=
  let step : List String → String →
      (Unit → Option Int × Option String × Option String) →
      Option Int × Option String × Option String := fun alts ord next =>
    match limitSearch alts none l with
    | some n =>
      if 0 < n then
        (some (n : Int), some ord, some ("limit:" ++ natToStr n ++ ":" ++ ord))
      else next ()
    | none => next ()
  step ["top"] "desc" (fun _ =>
    step ["primeros", "primeras", "primer"] "asc" (fun _ =>
      step ["ultimos", "ultimas", "ultim"] "desc" (fun _ => (none, none, none))))

/-! #### `extract_entities` -/

/-- Dedup by `(start, end)` keeping the first-seen label, as the insertion
into the `uniq` dictionary does. -/
def dedupRanges (seen : List (PyDate × PyDate)) : List DateRange → List DateRange
  | [] => []
  | r :: rest =>
    if (r.start, r.end_) ∈ seen then dedupRanges seen rest
    else r :: dedupRanges ((r.start, r.end_) :: seen) rest

/-- Granularity of a single merged window, by span in days. -/
def spanGranularity (r : DateRange) : DateGranularity :=
  let span := dateDiffDays r.end_ r.start
  if span ≤ 1 then .DAY
  else if span ≤ 32 then .MONTH
  else if span ≤ 93 then .QUARTER
  else if span ≤ 370 then .YEAR
  else .RANGE

/-- `extract_entities(question, today_value)`: the reference date is explicit
(the source defaults it to `date.today()`); a `ValueError` escaping
`_safe_date` is the `Except.error` case. -/
def extract_entities (question : String) (today : PyDate) :
    Except String ExtractedEntities :=
  if pyStripList question.data = [] then
    .ok ⟨"", [], .UNKNOWN, [], none, none, ["entrada_vacia"]⟩
  else
    let norm := entNormalizeL question.data
    let lo := extractLimitOrder norm
    let limit := lo.1
    let order := lo.2.1
    let reasons0 := match lo.2.2 with | some r => [r] | none => []
    let statuses := extractStatuses norm
    let reasons1 := reasons0 ++
      (if statuses = [] then [] else ["statuses:" ++ joinSep "," statuses])
    let relR := relRanges norm today
    let reasons2 := reasons1 ++ relReasons norm
    do
    let between ← extractBetweenRanges norm
    let reasons3 := reasons2 ++ (if between = [] then [] else ["rangos:entre_del_hasta"])
    let monthYear := extractMonthYear norm
    let reasons4 := reasons3 ++ (if monthYear = [] then [] else ["mes_anio"])
    let quarters := extractQuarters norm
    let reasons5 := reasons4 ++ (if quarters = [] then [] else ["trimestres"])
    let years := extractYears norm
    let reasons6 := reasons5 ++ (if years = [] then [] else ["anios"])
    let explicit ← extractExplicitDates norm
    let days := explicit.map (fun d => (⟨d, d.nextDay, d.isoformat⟩ : DateRange))
    let reasons7 := reasons6 ++ (if days = [] then [] else ["fechas_sueltas"])
    let allR := between ++ monthYear ++ quarters ++ years ++ days ++ relR
    let merged := dedupRanges [] allR
    let gran :=
      if merged.length = 0 then DateGranularity.UNKNOWN
      else if 1 < merged.length then DateGranularity.RANGE
      else spanGranularity (merged.headD ⟨⟨0, 1, 1⟩, ⟨0, 1, 2⟩, ""⟩)
    .ok ⟨⟨norm⟩, merged, gran, statuses, limit, order, reasons7⟩

/-! ### Intent detection (`src/core/intent/detector.py`) -/

inductive Intent
  | COUNT | LIST | AGGREGATE | DESCRIBE | UNKNOWN
deriving DecidableEq, Repr

def Intent.name : Intent → String
  | .COUNT => "COUNT"
  | .LIST => "LIST"
  | .AGGREGATE => "AGGREGATE"
  | .DESCRIBE => "DESCRIBE"
  | .UNKNOWN => "UNKNOWN"

structure DetectionResult where
  intent : Intent
  confidence : ℚ
  normalized_question : String
  reasons : List String
  flags : List (String × Bool)
deriving DecidableEq, Repr

/-- One weighted pattern of `_compile_patterns`: on accent-stripped lowercase
text every pattern is a word-boundary alternation of literal phrases
(`alts`); `src` is the original regex text, used in the trace reasons. -/
structure IntentPattern where
  alts : List String
  weight : ℚ
  src : String

def countPatterns : List IntentPattern :=
  [⟨["cuanta", "cuantas"], 1, "\\bcuantas?\\b"⟩,
   ⟨["numero de"], 9/10, "\\bnumero de\\b"⟩,
   ⟨["cantidad de"], 9/10, "\\bcantidad de\\b"⟩,
   ⟨["total de", "totales de"], 1, "\\btotal(?:es)? de\\b"⟩,
   ⟨["conteo"], 1, "\\bconteo\\b"⟩,
   ⟨["count"], 1, "\\bcount\\b"⟩,
   ⟨["how many"], 1, "\\bhow many\\b"⟩]

def listPatterns : List IntentPattern :=
  [⟨["lista", "listar"], 9/10, "\\blistar?\\b"⟩,
   ⟨["lista"], 8/10, "\\blista\\b"⟩,
   ⟨["mostra", "mostrar"], 7/10, "\\bmostrar?\\b"⟩,
   ⟨["muestrame"], 9/10, "\\bmu(?:e|e)strame\\b"⟩,
   ⟨["dame"], 6/10, "\\bdame\\b"⟩,
   ⟨["ver"], 5/10, "\\bver\\b"⟩,
   ⟨["consulta", "consultar"], 6/10, "\\bconsulta(r)?\\b"⟩,
   ⟨["list"], 8/10, "\\blist\\b"⟩,
   ⟨["select"], 6/10, "\\bselect\\b"⟩,
   ⟨["distinct"], 6/10, "\\bdistinct\\b"⟩]

def aggregatePatterns : List IntentPattern :=
  [⟨["promedio"], 1, "\\bpromedio\\b"⟩,
   ⟨["media"], 9/10, "\\bmedia\\b"⟩,
   ⟨["avg"], 1, "\\bavg\\b"⟩,
   ⟨["suma", "sumatoria"], 1, "\\bsuma(?:toria)?\\b"⟩,
   ⟨["sum"], 1, "\\bsum\\b"⟩,
   ⟨["max", "maximo"], 9/10, "\\bmax(?:imo)?\\b"⟩,
   ⟨["min", "minimo"], 9/10, "\\bmin(?:imo)?\\b"⟩,
   ⟨["mediana"], 9/10, "\\bmediana\\b"⟩,
   ⟨["percentil", "percentiles"], 9/10, "\\bpercentil(?:es)?\\b"⟩,
   ⟨["group by"], 9/10, "\\bgroup by\\b"⟩,
   ⟨["agrupar", "agrupados", "agrupado"], 9/10, "\\bagrup(?:ar|ados?)\\b"⟩]

def describePatterns : List IntentPattern :=
  [⟨["columna", "columnas"], 1, "\\bcolumnas?\\b"⟩,
   ⟨["campo", "campos"], 1, "\\bcampos?\\b"⟩,
   ⟨["estructura"], 1, "\\bestructura\\b"⟩,
   ⟨["esquema"], 1, "\\besquema\\b"⟩,
   ⟨["describe", "describer"], 1, "\\bdescribe(r)?\\b"⟩,
   ⟨["metadata"], 9/10, "\\bmetadata\\b"⟩,
   ⟨["que tabla", "que tablas"], 9/10, "\\bque tablas?\\b"⟩,
   ⟨["cuales tablas"], 9/10, "\\bcuales tablas\\b"⟩,
   ⟨["en que tablas"], 9/10, "\\ben que tablas\\b"⟩,
   ⟨["ddl"], 8/10, "\\bddl\\b"⟩]

/-- Accumulated weight and trace reasons of the patterns matching `norm`. -/
def patHits (tag : String) (ps : List IntentPattern) (norm : List Char) :
    ℚ × List String :=
  ps.foldl (fun acc p =>
    if containsAnyWord p.alts norm then
      (acc.1 + p.weight, acc.2 ++ ["match:" ++ tag ++ ":" ++ p.src])
    else acc) (0, [])

/-- `detector._normalize`: strip, lowercase, NFKD accent strip, then three
literal replaces (no-ops on accent-stripped text, kept for fidelity). -/
def detNormalizeL (l : List Char) : List Char :=
  let base := stripAccentsList (lowerList (pyStripList l))
  replaceList "cuánta".data "cuanta".data
    (replaceList "cúantos".data "cuantos".data
      (replaceList "qué".data "que".data base))

/-- `_basic_flags`. The alternative `\btrimestre \d\b` is subsumed by
`\btrimestre\b` but listed faithfully. -/
def basicFlags (norm : List Char) : List (String × Bool) :=
  let hasTime :=
    !(extractYears norm).isEmpty
    || containsAnyWord ["hoy", "ayer", "manana"] norm
    || containsAnyWord ["este ao", "este ano", "este mes", "el mes pasado",
          "el ao pasado", "el ano pasado"] norm
    || containsAnyWord ["en ene", "en feb", "en mar", "en abr", "en may",
          "en jun", "en jul", "en ago", "en sep", "en oct", "en nov", "en dic"] norm
    || containsAnyWord ["en enero", "en febrero", "en marzo", "en abril",
          "en mayo", "en junio", "en julio", "en agosto", "en septiembre",
          "en octubre", "en noviembre", "en diciembre"] norm
    || containsAnyWord ["trimestre", "cuatrimestre", "semestre",
          "trimestre 0", "trimestre 1", "trimestre 2", "trimestre 3",
          "trimestre 4", "trimestre 5", "trimestre 6", "trimestre 7",
          "trimestre 8", "trimestre 9", "q1", "q2", "q3", "q4"] norm
  let hasGroup :=
    containsAnyWord ["group by"] norm
    || containsAnyWord ["agrupar", "agrupados", "agrupado"] norm
  [("has_time_filter", hasTime), ("has_grouping", hasGroup)]

/-- `IntentDetector._best`: `max` over the insertion-ordered dict with
`UNKNOWN` filtered out — the first maximal intent wins, so `COUNT` wins
ties. -/
def best4 (sC sL sA sD : ℚ) : Intent × ℚ :=
  let p1 : Intent × ℚ := (.COUNT, sC)
  let p2 : Intent × ℚ := if sL > p1.2 then (.LIST, sL) else p1
  let p3 : Intent × ℚ := if sA > p2.2 then (.AGGREGATE, sA) else p2
  if sD > p3.2 then (.DESCRIBE, sD) else p3

/-- Python `max(a, b)` / `min(a, b)` on the rational score model (spelled as
comparisons so that the kernel can evaluate them). -/
def qmax (a b : ℚ) : ℚ := if a ≤ b then b else a

def qmin (a b : ℚ) : ℚ := if a ≤ b then a else b

/-- Second-best score: maximum over the non-winner, non-`UNKNOWN` intents. -/
def secondScore (winner : Intent) (sC sL sA sD : ℚ) : ℚ :=
  [(Intent.COUNT, sC), (Intent.LIST, sL), (Intent.AGGREGATE, sA),
   (Intent.DESCRIBE, sD)].foldl
    (fun acc p => if p.1 = winner then acc else qmax acc p.2) 0

/-- Python `round(x, 3)`: round to the nearest multiple of `1/1000`, ties to
even (banker's rounding), on the idealized rational model of the float
scores. -/
def round3 (q : ℚ) : ℚ :=
  let scaled := q * 1000
  let fl := scaled.floor
  let frac := scaled - (fl : ℚ)
  let r : ℤ :=
    if frac < 1/2 then fl
    else if (1 : ℚ)/2 < frac then fl + 1
    else if fl % 2 = 0 then fl else fl + 1
  (r : ℚ) / 1000

/-- `IntentDetector._confidence` with the default config
(`tie_penalty = 0.1`). -/
def confidenceOf (winner : Intent) (ws : ℚ) (sC sL sA sD : ℚ) : ℚ :=
  let second := secondScore winner sC sL sA sD
  if ws ≤ 0 then 0
  else
    let margin := qmax (ws - second) 0
    let base := qmin (ws / (ws + second + 1 / 1000000)) 1
    if margin < 1/5 then qmax (1/2) (base - 1/10)
    else if margin < 1/2 then qmax (11/20) (base - 1/20)
    else qmin (99/100) (base + 1/10)

/-- The high-confidence prefix rule of `detect`. -/
def detPrefix (n : List Char) : Bool :=
  "cuantas ".data.isPrefixOf n || "cuantos ".data.isPrefixOf n
    || "how many ".data.isPrefixOf n

/-- `IntentDetector.detect` with the default configuration
(`min_confidence = 0.6`). -/
def detect (question : String) : DetectionResult :=
  if pyStripList question.data = [] then
    ⟨.UNKNOWN, 0, "", ["entrada_vacia"], []⟩
  else
    let norm := detNormalizeL question.data
    let pre := detPrefix norm
    let preReasons := if pre then ["regla_inicio_cuantas/how_many"] else []
    let pC := patHits "COUNT" countPatterns norm
    let pL := patHits "LIST" listPatterns norm
    let pA := patHits "AGGREGATE" aggregatePatterns norm
    let pD := patHits "DESCRIBE" describePatterns norm
    let sC := (if pre then 6/5 else 0) + pC.1
    let bb := best4 sC pL.1 pA.1 pD.1
    let conf := confidenceOf bb.1 bb.2 sC pL.1 pA.1 pD.1
    let fin :=
      if conf < 3/5 then
        if bb.1 = .LIST ∨ bb.1 = .COUNT ∨ bb.1 = .AGGREGATE ∨ bb.1 = .DESCRIBE then
          (bb.1, qmax conf (51/100), ([] : List String))
        else (.LIST, 51/100, ["fallback:list_por_defecto"])
      else (bb.1, conf, [])
    ⟨fin.1, round3 fin.2.1, ⟨norm⟩,
      preReasons ++ pC.2 ++ pL.2 ++ pA.2 ++ pD.2 ++ fin.2.2, basicFlags norm⟩

/-! ### Column/table model (`src/core/selection/column_selector.py`) -/

structure ColumnSnapshot where
  name : String
  type : Option String := none
  is_pk : Bool := false
  is_fk : Bool := false
  nullable : Option Bool := none
  description : String := ""
deriving DecidableEq, Repr

structure TableProfile where
  full_name : String
  name : String
  schema : String
  columns : List ColumnSnapshot
deriving DecidableEq, Repr

inductive ColumnRole
  | DATE | STATUS | ID
deriving DecidableEq, Repr

def ColumnRole.name : ColumnRole → String
  | .DATE => "DATE"
  | .STATUS => "STATUS"
  | .ID => "ID"

def ColumnRole.lowerName : ColumnRole → String
  | .DATE => "date"
  | .STATUS => "status"
  | .ID => "id"

structure ColumnChoice where
  role : ColumnRole
  column : Option ColumnSnapshot
  score : ℚ
  reasons : List String := []
deriving DecidableEq, Repr

structure ColumnSelectionResult where
  table_full_name : String
  choices : List (ColumnRole × ColumnChoice)
  reasons : List String := []
  confidence : ℚ := 0
deriving DecidableEq, Repr

/-- `columns.choices.get(role)`. -/
def getChoice (c : ColumnSelectionResult) (r : ColumnRole) : Option ColumnChoice :=
  (c.choices.find? (fun p => p.1 = r)).map (fun p => p.2)

/-- `SqlPlanner._get_role`: `choice.column if choice else None`. -/
def getRole (c : ColumnSelectionResult) (r : ColumnRole) : Option ColumnSnapshot :=
  match getChoice c r with
  | some ch => ch.column
  | none => none

/-! ### SQL planner (`src/core/planning/sql_planner.py`) -/

/-- A bound parameter value (`object` in the source: strings for dates and
statuses, an integer for the LIMIT bound). -/
inductive PValue
  | s (v : String)
  | i (v : Int)
deriving DecidableEq, Repr

/-- A metadata value of `SqlPlan.meta`. -/
inductive MetaV
  | s (v : String)
  | os (v : Option String)
  | i (v : Int)
  | ls (v : List String)
deriving DecidableEq, Repr

structure SqlPlan where
  dialect : String
  sql : String
  params_named : List (String × PValue)
  params_seq : List PValue
  meta : List (String × MetaV)
  warnings : List String
deriving DecidableEq, Repr

/-- `SqlPlannerConfig` (the two name tuples are configuration data the planner
never reads). -/
structure SqlPlannerConfig where
  default_list_limit : Int := 100
  max_select_columns : Nat := 12
  prefer_order_by_date : Bool := true
  preferred_date_names : List String :=
    ["fechacita", "fecha_cita", "fechaprogramada", "fecha", "created_at",
     "createdon", "createddate", "datetime", "timestamp"]
  id_fallback_names : List String := ["cita_id", "id_cita", "id", "citaid"]
deriving Repr

/-- `_quote_ident`: brackets with `]` doubling for sqlserver, double quotes
with `"` doubling otherwise. -/
def quoteIdent (dialect : String) (ident : String) : String :=
  if dialect = "sqlserver" then
    "[" ++ (⟨replaceList [']'] [']', ']'] ident.data⟩ : String) ++ "]"
  else
    "\"" ++ (⟨replaceList ['"'] ['"', '"'] ident.data⟩ : String) ++ "\""

/-- `_quote_table` (`if schema:` is Python truthiness on the string). -/
def quoteTable (dialect schemaName table : String) : String :=
  if schemaName ≠ "" then
    quoteIdent dialect schemaName ++ "." ++ quoteIdent dialect table
  else quoteIdent dialect table

def isIdentStart (c : Char) : Bool :=
  ('a' ≤ c && c ≤ 'z') || ('A' ≤ c && c ≤ 'Z') || c = '_'

def isIdentChar (c : Char) : Bool := isIdentStart c || c.isDigit

/-- `_named_to_qmark`: rewrite each `:name` ( `:[a-zA-Z_][a-zA-Z0-9_]*` ) to
`?` left to right, appending the bound value; an unbound name raises
`KeyError`. -/
def namedToQmarkF (params : List (String × PValue)) :
    Nat → List Char → Except String (List Char × List PValue)
  | 0, l => .ok (l, [])
  | _ + 1, [] => .ok ([], [])
  | fuel + 1, c0 :: rest =>
    if c0 = ':' then
      match rest with
      | c :: cs =>
        if isIdentStart c then
          let identTail := cs.takeWhile isIdentChar
          let ident : String := ⟨c :: identTail⟩
          match params.find? (fun p => p.1 = ident) with
          | none => .error ("Parámetro no provisto: " ++ ident)
          | some p => do
            let (s', seq) ← namedToQmarkF params fuel (cs.drop identTail.length)
            .ok ('?' :: s', p.2 :: seq)
        else do
          let (s', seq) ← namedToQmarkF params fuel (c :: cs)
          .ok (':' :: s', seq)
      | [] => .ok ([':'], [])
    else do
      let (s', seq) ← namedToQmarkF params fuel rest
      .ok (c0 :: s', seq)

/-- `l.length + 1` fuel suffices: every step consumes at least one char. -/
def namedToQmark (params : List (String × PValue)) (l : List Char) :
    Except String (List Char × List PValue) :=
  namedToQmarkF params (l.length + 1) l

/-- `SqlPlanner._compose_where`. -/
def composeWhere (dialect : String) (dateCol statusCol : Option ColumnSnapshot)
    (entities : ExtractedEntities) :
    String × List (String × PValue) × List String :=
  let (dateParts, dateParams, warns) :=
    if entities.date_ranges ≠ [] then
      match dateCol with
      | none => (([] : List String), ([] : List (String × PValue)),
          ["rango_fecha_solicitado_sin_columna_fecha"])
      | some col =>
        let qn := quoteIdent dialect col.name
        let exprs := entities.date_ranges.enum.map (fun p =>
          qn ++ " >= :start_" ++ natToStr p.1 ++ " AND " ++ qn ++ " < :end_" ++ natToStr p.1)
        let ps := entities.date_ranges.enum.flatMap (fun p =>
          [("start_" ++ natToStr p.1, PValue.s p.2.start.isoformat),
           ("end_" ++ natToStr p.1, PValue.s p.2.end_.isoformat)])
        (["(" ++ joinSep " OR " exprs ++ ")"], ps, [])
    else ([], [], [])
  let (statusParts, statusParams) :=
    if entities.statuses ≠ [] then
      match statusCol with
      | some col =>
        if entities.statuses.length = 1 then
          ([quoteIdent dialect col.name ++ " = :status_0"],
           [("status_0", PValue.s (entities.statuses.headD ""))])
        else
          (([quoteIdent dialect col.name ++ " IN (" ++
              joinSep ", "
                (entities.statuses.enum.map (fun p => ":status_" ++ natToStr p.1)) ++ ")"]),
           entities.statuses.enum.map (fun p => ("status_" ++ natToStr p.1, PValue.s p.2)))
      | none => ([], [])
    else ([], [])
  (joinSep " AND " (dateParts ++ statusParts),
   dateParams ++ statusParams, warns)

/-- `SqlPlanner._finalize_sql`. -/
def finalizeSql (dialect : String) (sqlNamed : String)
    (params : List (String × PValue)) : Except String (String × List PValue) :=
  if dialect = "sqlserver" then
    (namedToQmark params sqlNamed.data).map (fun p => ((⟨p.1⟩ : String), p.2))
  else .ok (sqlNamed, [])

/-- `SqlPlanner._build_count`. -/
def buildCount (dialect : String) (table : TableProfile)
    (columns : ColumnSelectionResult) (entities : ExtractedEntities)
    (question : String) : Except String SqlPlan := do
  let dateCol := getRole columns .DATE
  let statusCol := getRole columns .STATUS
  let tblSql := quoteTable dialect table.schema table.name
  let (whereSql, params, warns) := composeWhere dialect dateCol statusCol entities
  let sqlNamed := "SELECT COUNT(*) AS total FROM " ++ tblSql ++
    (if whereSql ≠ "" then " WHERE " ++ whereSql else "")
  let (finalSql, seq) ← finalizeSql dialect sqlNamed params
  let meta : List (String × MetaV) :=
    [("table", .s table.full_name), ("intent", .s "COUNT"),
     ("date_column", .os (dateCol.map (fun c => c.name))),
     ("status_column", .os (statusCol.map (fun c => c.name))),
     ("question", .s question),
     ("filters", .ls (params.map (fun p => p.1)))]
  .ok ⟨dialect, finalSql, params, seq, meta, warns⟩

/-- `SqlPlanner._build_list`. -/
def buildList (cfg : SqlPlannerConfig) (dialect : String) (table : TableProfile)
    (columns : ColumnSelectionResult) (entities : ExtractedEntities)
    (question : String) (selectColumns : Option (List String)) :
    Except String SqlPlan := do
  let dateCol := getRole columns .DATE
  let statusCol := getRole columns .STATUS
  let idCol := getRole columns .ID
  let tblSql := quoteTable dialect table.schema table.name
  let selectList :=
    match selectColumns with
    | some scs =>
      if scs.length ≠ 0 then
        joinSep ", " (scs.map (quoteIdent dialect))
      else
        joinSep ", "
          ((table.columns.map (fun c => c.name)).take cfg.max_select_columns
            |>.map (quoteIdent dialect))
    | none =>
      joinSep ", "
        ((table.columns.map (fun c => c.name)).take cfg.max_select_columns
          |>.map (quoteIdent dialect))
  let (whereSql, params0, warns) := composeWhere dialect dateCol statusCol entities
  let (orderCol, orderDir) :=
    if dateCol.isSome && cfg.prefer_order_by_date then
      ((dateCol.map (fun c => c.name)), "DESC")
    else if idCol.isSome then ((idCol.map (fun c => c.name)), "DESC")
    else (none, "ASC")
  let limit : Int :=
    match entities.limit with
    | some n => if n = 0 then cfg.default_list_limit else n
    | none => cfg.default_list_limit
  let (sqlNamed, params) :=
    if dialect = "sqlserver" then
      ("SELECT TOP " ++ intToStr limit ++ " " ++ selectList ++ " FROM " ++ tblSql ++
        (if whereSql ≠ "" then " WHERE " ++ whereSql else "") ++
        (match orderCol with
         | some oc => " ORDER BY " ++ quoteIdent dialect oc ++ " " ++ orderDir
         | none => ""), params0)
    else
      ("SELECT " ++ selectList ++ " FROM " ++ tblSql ++
        (if whereSql ≠ "" then " WHERE " ++ whereSql else "") ++
        (match orderCol with
         | some oc => " ORDER BY " ++ quoteIdent dialect oc ++ " " ++ orderDir
         | none => "") ++ " LIMIT :limit_rows",
       params0 ++ [("limit_rows", PValue.i limit)])
  let (finalSql, seq) ← finalizeSql dialect sqlNamed params
  let meta : List (String × MetaV) :=
    [("table", .s table.full_name), ("intent", .s "LIST"),
     ("date_column", .os (dateCol.map (fun c => c.name))),
     ("status_column", .os (statusCol.map (fun c => c.name))),
     ("id_column", .os (idCol.map (fun c => c.name))),
     ("question", .s question), ("limit", .i limit),
     ("order_by", .os orderCol), ("order_dir", .s orderDir),
     ("filters", .ls (params.map (fun p => p.1)))]
  .ok ⟨dialect, finalSql, params, seq, meta, warns⟩

/-- `SqlPlanner._build_describe`. -/
def buildDescribe (dialect : String) (table : TableProfile) :
    Except String SqlPlan := do
  let tblSql := quoteTable dialect table.schema table.name
  let (sqlNamed, params) :=
    if dialect = "sqlite" then
      ("PRAGMA table_info(" ++ quoteIdent dialect table.name ++ ")",
       ([] : List (String × PValue)))
    else if dialect = "sqlserver" then
      ("SELECT COLUMN_NAME, DATA_TYPE, IS_NULLABLE " ++
        "FROM INFORMATION_SCHEMA.COLUMNS " ++
        "WHERE TABLE_SCHEMA = :schema AND TABLE_NAME = :table " ++
        "ORDER BY ORDINAL_POSITION",
       [("schema", PValue.s table.schema), ("table", PValue.s table.name)])
    else
      ("SELECT * FROM " ++ tblSql ++ " LIMIT 0", [])
  let (finalSql, seq) ← finalizeSql dialect sqlNamed params
  let meta : List (String × MetaV) :=
    [("table", .s table.full_name), ("intent", .s "DESCRIBE")]
  .ok ⟨dialect, finalSql, params, seq, meta, []⟩

/-- `SqlPlanner.build`: dispatch by intent; `AGGREGATE` raises `ValueError`;
an unrecognized intent falls through to the list builder. -/
def build (cfg : SqlPlannerConfig) (intent : Intent) (dialect : String)
    (table : TableProfile) (columns : ColumnSelectionResult)
    (entities : ExtractedEntities) (question : String)
    (selectColumns : Option (List String)) : Except String SqlPlan :=
  match intent with
  | .COUNT => buildCount dialect table columns entities question
  | .LIST => buildList cfg dialect table columns entities question selectColumns
  | .AGGREGATE => .error "AGGREGATE aún no implementado en SqlPlanner"
  | .DESCRIBE => buildDescribe dialect table
  | .UNKNOWN => buildList cfg dialect table columns entities question selectColumns

/-! ### SQL validation (`src/core/planning/sql_validator.py`) -/

structure ColumnInfo where
  name : String
  type : Option String := none
  pk : Bool := false
  nullable : Option Bool := none
  description : String := ""
deriving DecidableEq, Repr

structure TableInfo where
  full_name : String
  schema : String
  name : String
  columns : List (String × ColumnInfo)
  pk_columns : List String := []
deriving DecidableEq, Repr

structure SchemaCatalog where
  tables : List (String × TableInfo) := []
deriving DecidableEq, Repr

def strLower (s : String) : String := ⟨lowerList s.data⟩

/-- `SchemaCatalog._key` / `_colkey`: strip then lowercase. -/
def catKey (s : String) : String := strLower (pyStrip s)

def SchemaCatalog.hasTable (cat : SchemaCatalog) (full : String) : Bool :=
  (cat.tables.find? (fun p => p.1 = catKey full)).isSome

def SchemaCatalog.getTable (cat : SchemaCatalog) (full : String) : Option TableInfo :=
  (cat.tables.find? (fun p => p.1 = catKey full)).map (fun p => p.2)

def SchemaCatalog.hasColumn (cat : SchemaCatalog) (full col : String) : Bool :=
  match cat.getTable full with
  | some t => ((t.columns.find? (fun p => p.1 = catKey col))).isSome
  | none => false

def SchemaCatalog.getColumn (cat : SchemaCatalog) (full col : String) : Option ColumnInfo :=
  match cat.getTable full with
  | some t => ((t.columns.find? (fun p => p.1 = catKey col))).map (fun p => p.2)
  | none => none

structure ValidationIssue where
  level : String
  code : String
  message : String
  details : List (String × String) := []
deriving DecidableEq, Repr

structure ValidationResult where
  ok : Bool
  issues : List ValidationIssue
deriving DecidableEq, Repr

/-- `_DANGEROUS_RX` (whole-word, case-insensitive). -/
def dangerousSql (sql : String) : Bool :=
  ["insert", "update", "delete", "drop", "alter", "truncate", "merge",
   "exec", "execute", "call", "create", "grant", "revoke"].any
    (fun k => containsWordS k (lowerList sql.data))

/-- `_SELECT_RX`: `^\s*(SELECT|WITH)\b`, case-insensitive. -/
def startsSelectOrWith (sql : String) : Bool :=
  let r := (lowerList sql.data).dropWhile isSpaceChar
  ("select".data.isPrefixOf r && boundaryRight (r.drop 6))
  || ("with".data.isPrefixOf r && boundaryRight (r.drop 4))

/-- `_NAMED_PARAM_RX.findall` (fuel-driven; `l.length + 1` fuel suffices). -/
def findNamedParamsF : Nat → List Char → List String
  | 0, _ => []
  | _ + 1, [] => []
  | fuel + 1, ':' :: rest =>
    (match rest with
     | c :: cs =>
       if isIdentStart c then
         let identTail := cs.takeWhile isIdentChar
         (⟨c :: identTail⟩ : String) :: findNamedParamsF fuel (cs.drop identTail.length)
       else findNamedParamsF fuel (c :: cs)
     | [] => [])
  | fuel + 1, _ :: rest => findNamedParamsF fuel rest

def findNamedParams (l : List Char) : List String := findNamedParamsF (l.length + 1) l

def insertSorted (x : String) : List String → List String
  | [] => [x]
  | y :: rest => if x < y then x :: y :: rest else y :: insertSorted x rest

/-- Python `sorted` on distinct strings (codepoint lexicographic). -/
def sortStrs (l : List String) : List String := l.foldr insertSorted []

def upperList (l : List Char) : List Char := l.map Char.toUpper

def containsSub (pat : List Char) : List Char → Bool
  | [] => pat.isPrefixOf []
  | c :: rest => pat.isPrefixOf (c :: rest) || containsSub pat rest

/-- `SqlValidator._validate_role_column` (its `meta_key` argument is unused by
the source body). -/
def roleIssues (catalog : SchemaCatalog) (table : TableProfile)
    (columns : ColumnSelectionResult) (role : ColumnRole) : List ValidationIssue :=
  let choice := getChoice columns role
  let col := match choice with | some ch => ch.column | none => none
  match col with
  | none =>
    [⟨"warning", role.lowerName ++ "_missing",
      "No se eligió columna para el rol " ++ role.name ++ ".",
      [("table", table.full_name)]⟩]
  | some c =>
    if !(catalog.hasColumn table.full_name c.name) then
      [⟨"error", role.lowerName ++ "_invalid",
        "La columna '" ++ c.name ++ "' para el rol " ++ role.name ++
          " no existe en la tabla.",
        [("table", table.full_name), ("column", c.name)]⟩]
    else
      let info := catalog.getColumn table.full_name c.name
      let details0 := [("table", table.full_name), ("column", c.name)]
      let details1 := details0 ++
        (match info with
         | some ci => match ci.type with | some t => [("type", t)] | none => []
         | none => [])
      let details2 := details1 ++
        (match info with
         | some ci => if ci.pk then [("pk", "true")] else []
         | none => [])
      [⟨"info", role.lowerName ++ "_ok",
        "Columna para " ++ role.name ++ " verificada.", details2⟩]

/-- `SqlValidator._validate_params`. -/
def paramIssues (plan : SqlPlan) : List ValidationIssue :=
  if plan.dialect = "sqlserver" then
    let qmarks := plan.sql.data.count '?'
    if qmarks ≠ plan.params_seq.length then
      [⟨"error", "params_mismatch",
        "Cantidad de marcadores '?' no coincide con los parámetros provistos.",
        [("placeholders", natToStr qmarks), ("params", natToStr plan.params_seq.length)]⟩]
    else
      [⟨"info", "params_ok", "Parámetros posicionales consistentes.",
        [("placeholders", natToStr qmarks)]⟩]
  else
    let used := dedupStr [] (findNamedParams plan.sql.data)
    let provided := dedupStr [] (plan.params_named.map (fun p => p.1))
    let missing := used.filter (fun n => n ∉ provided)
    let extra := provided.filter (fun n => n ∉ used)
    (if missing ≠ [] then
      [⟨"error", "params_missing", "Faltan valores para parámetros nombrados.",
        [("missing", joinSep "," (sortStrs missing))]⟩]
     else []) ++
    (if extra ≠ [] then
      [⟨"warning", "params_extra",
        "Se proporcionaron parámetros no utilizados en el SQL.",
        [("extra", joinSep "," (sortStrs extra))]⟩]
     else []) ++
    (if missing = [] then
      [⟨"info", "params_ok", "Parámetros nombrados consistentes.",
        [("count", natToStr used.length)]⟩]
     else [])

/-- `SqlValidator._warn_useful`. -/
def usefulIssues (plan : SqlPlan) : List ValidationIssue :=
  (if containsSub " COUNT(".data (upperList plan.sql.data)
      && plan.params_named.isEmpty && plan.params_seq.isEmpty then
    [⟨"warning", "no_filters",
      "Consulta COUNT sin filtros; verifique si se requiere un rango de fechas o estado.",
      []⟩]
   else []) ++
  plan.warnings.map (fun w => ⟨"warning", "planner_warn", w, []⟩)

/-- `SqlValidator.validate` followed by `finalize`: all checks run, then
`ok := no error-level issue`. -/
def validate (plan : SqlPlan) (catalog : SchemaCatalog) (table : TableProfile)
    (columns : ColumnSelectionResult) : ValidationResult :=
  let issues :=
    (if dangerousSql plan.sql then
      [⟨"error", "dangerous_sql",
        "Se detectaron palabras clave potencialmente peligrosas en el SQL.", []⟩]
     else []) ++
    (if !startsSelectOrWith plan.sql then
      [⟨"error", "not_select",
        "El plan SQL no parece ser una consulta SELECT/WITH.", []⟩]
     else []) ++
    (if !(catalog.hasTable table.full_name) then
      [⟨"error", "table_not_found", "La tabla no existe en el catálogo.",
        [("table", table.full_name)]⟩]
     else
      [⟨"info", "table_ok", "Tabla encontrada en el catálogo.",
        [("table", table.full_name)]⟩]) ++
    roleIssues catalog table columns .DATE ++
    roleIssues catalog table columns .STATUS ++
    roleIssues catalog table columns .ID ++
    paramIssues plan ++
    usefulIssues plan
  ⟨!(issues.any (fun i => i.level = "error")), issues⟩

/-! ### Concrete scenario data (shared by several claims) -/

def fechaCol : ColumnSnapshot := { name := "fecha" }

def citaTable : TableProfile :=
  { full_name := "dbo.cita"
    name := "cita"
    schema := "dbo"
    columns := [{ name := "cita_id", is_pk := true }, fechaCol, { name := "estado" }] }

/-- A column selection whose Date-role choice is `fecha` and which chooses no
Status or Id column. -/
def citaColumns : ColumnSelectionResult :=
  { table_full_name := "dbo.cita"
    choices := [(ColumnRole.DATE, { role := .DATE, column := some fechaCol, score := 2 })] }

def scenarioAQuestion : String := "Cuantas citas hay en el 2025"

/-- An arbitrary reference date; the scenario questions contain no
relative-date expression, so the extraction does not depend on it. -/
def refDate : PyDate := ⟨2025, 6, 15⟩

/-- The entities the extractor returns for scenario A. -/
def scenarioAEntities : ExtractedEntities :=
  ⟨"cuantas citas hay en el 2025",
   [⟨⟨2025, 1, 1⟩, ⟨2026, 1, 1⟩, "2025"⟩],
   .YEAR, [], none, none, ["anios"]⟩

/-- The plan the planner builds for scenario A. -/
def scenarioAPlan : SqlPlan :=
  ⟨"sqlserver",
   "SELECT COUNT(*) AS total FROM [dbo].[cita] WHERE ([fecha] >= ? AND [fecha] < ?)",
   [("start_0", .s "2025-01-01"), ("end_0", .s "2026-01-01")],
   [.s "2025-01-01", .s "2026-01-01"],
   [("table", .s "dbo.cita"), ("intent", .s "COUNT"),
    ("date_column", .os (some "fecha")), ("status_column", .os none),
    ("question", .s scenarioAQuestion), ("filters", .ls ["start_0", "end_0"])],
   []⟩

/-- A table whose name contains a literal `?`. -/
def qmTable : TableProfile := ⟨"t?", "t?", "", []⟩

def emptyColumns : ColumnSelectionResult := ⟨"t?", [], [], 0⟩

def emptyEntities : ExtractedEntities := ⟨"", [], .UNKNOWN, [], none, none, []⟩

/-- The plan built for a bare count over `qmTable`. -/
def qmPlan : SqlPlan :=
  ⟨"sqlserver", "SELECT COUNT(*) AS total FROM [t?]", [], [],
   [("table", .s "t?"), ("intent", .s "COUNT"), ("date_column", .os none),
    ("status_column", .os none), ("question", .s ""), ("filters", .ls [])],
   []⟩

end MCP

deriving instance DecidableEq for Except

attribute [local semireducible] Rat.add Rat.sub Rat.mul Rat.inv Rat.ofScientific

set_option maxRecDepth 100000

namespace MCP

/-! ### Claim theorems -/

lemma exceptBind_ok {α β : Type} {x : Except String α} {f : α → Except String β} {b : β}
    (h : x.bind f = .ok b) : ∃ a, x = .ok a ∧ f a = .ok b := by
  cases x with
  | error e => simp [Except.bind] at h
  | ok a => exact ⟨a, rfl, h⟩

lemma composeWhere_statusCol_none (d : String) (dc : Option ColumnSnapshot)
    (e : ExtractedEntities) :
    composeWhere d dc none e = composeWhere d dc none { e with statuses := [] } := by
  unfold composeWhere
  by_cases h : e.date_ranges = [] <;> by_cases h2 : e.statuses = [] <;> simp [h, h2]

lemma composeWhere_dateCol_none (d : String) (sc : Option ColumnSnapshot)
    (e : ExtractedEntities) (hne : e.date_ranges ≠ []) :
    composeWhere d none sc e
      = ((composeWhere d none sc { e with date_ranges := [] }).1,
         (composeWhere d none sc { e with date_ranges := [] }).2.1,
         ["rango_fecha_solicitado_sin_columna_fecha"]) := by
  unfold composeWhere
  by_cases h2 : e.statuses = [] <;> simp [hne, h2]

lemma composeWhere_nil_ranges_warns (d : String) (dc sc : Option ColumnSnapshot)
    (e : ExtractedEntities) (h : e.date_ranges = []) :
    (composeWhere d dc sc e).2.2 = [] := by
  unfold composeWhere
  by_cases h2 : e.statuses = [] <;> simp [h, h2]

lemma round3_ge_half51 {q : ℚ} (h : 51/100 ≤ q) : 51/100 ≤ round3 q := by
  simp only [round3]
  have hfl : (510 : ℤ) ≤ (q * 1000).floor := by
    rw [Rat.le_floor]
    push_cast
    linarith
  have hr : (510 : ℤ) ≤
      (if q * 1000 - ((q * 1000).floor : ℚ) < 1/2 then (q * 1000).floor
       else if (1 : ℚ)/2 < q * 1000 - ((q * 1000).floor : ℚ) then (q * 1000).floor + 1
       else if (q * 1000).floor % 2 = 0 then (q * 1000).floor
       else (q * 1000).floor + 1) := by
    split_ifs <;> omega
  have hcast : ((510 : ℤ) : ℚ) ≤
      ((if q * 1000 - ((q * 1000).floor : ℚ) < 1/2 then (q * 1000).floor
       else if (1 : ℚ)/2 < q * 1000 - ((q * 1000).floor : ℚ) then (q * 1000).floor + 1
       else if (q * 1000).floor % 2 = 0 then (q * 1000).floor
       else (q * 1000).floor + 1 : ℤ) : ℚ) := by
    exact_mod_cast hr
  rw [le_div_iff₀ (by norm_num : (0:ℚ) < 1000)]
  push_cast at hcast ⊢
  linarith

lemma best4_count_of_max {sC sL sA sD : ℚ} (hL : sL ≤ sC) (hA : sA ≤ sC) (hD : sD ≤ sC) :
    best4 sC sL sA sD = (Intent.COUNT, sC) := by
  simp only [best4]
  split_ifs <;> first | rfl | (exfalso; simp_all; linarith)

/-- C7: for every dialect, table profile, column selection, entities, question
and projection, calling the planner's `build` with intent `AGGREGATE` signals
an error (the `ValueError` of the source) and produces no plan. -/
theorem build_aggregate_raises (cfg : SqlPlannerConfig) (dialect : String)
    (table : TableProfile) (columns : ColumnSelectionResult)
    (entities : ExtractedEntities) (question : String)
    (selectColumns : Option (List String)) :
    build cfg .AGGREGATE dialect table columns entities question selectColumns
      = .error "AGGREGATE aún no implementado en SqlPlanner" := rfl

/-- C1 (amended): for "Cuantas citas hay en el 2025" over sqlserver table
`dbo.cita` with Date-role column `fecha`, the detector returns intent Count,
extraction returns exactly the DateRange [2025-01-01, 2026-01-01), and the
planner builds `SELECT COUNT(*) AS total FROM [dbo].[cita] WHERE ([fecha] >= ?
AND [fecha] < ?)` — with parentheses around the date predicate — with
positional parameters ["2025-01-01", "2026-01-01"]. -/
theorem scenarioA_count_pipeline :
    (detect scenarioAQuestion).intent = Intent.COUNT
    ∧ extract_entities scenarioAQuestion refDate = .ok scenarioAEntities
    ∧ scenarioAEntities.date_ranges = [⟨⟨2025, 1, 1⟩, ⟨2026, 1, 1⟩, "2025"⟩]
    ∧ build {} .COUNT "sqlserver" citaTable citaColumns scenarioAEntities
        scenarioAQuestion none = .ok scenarioAPlan
    ∧ scenarioAPlan.sql
        = "SELECT COUNT(*) AS total FROM [dbo].[cita] WHERE ([fecha] >= ? AND [fecha] < ?)"
    ∧ scenarioAPlan.params_seq = [.s "2025-01-01", .s "2026-01-01"] := by
  decide

/-- C1 (counterexample to the claim as stated): the SQL text the planner
actually produces for scenario A is not the claimed
`SELECT COUNT(*) AS total FROM [dbo].[cita] WHERE [fecha] >= ? AND [fecha] < ?`
— the builder always wraps the OR-joined date predicates in parentheses. -/
theorem scenarioA_sql_not_as_claimed :
    build {} .COUNT "sqlserver" citaTable citaColumns scenarioAEntities
        scenarioAQuestion none = .ok scenarioAPlan
    ∧ scenarioAPlan.sql
        ≠ "SELECT COUNT(*) AS total FROM [dbo].[cita] WHERE [fecha] >= ? AND [fecha] < ?" := by
  decide

/-- C3: for "entre 2024-05-01 y 2024-06-30" the extractor does NOT return the
single range [2024-05-01, 2024-07-01): the lazy `(.+?)\b` of the between
pattern truncates the right-hand side at the word boundary inside the ISO
date ("2024"), the parse fails, and the question instead yields three ranges —
the whole year 2024 plus the two single days. -/
theorem scenarioE_between_parse_bug :
    (extract_entities "entre 2024-05-01 y 2024-06-30" refDate).map
        (fun e => e.date_ranges)
      = .ok [⟨⟨2024, 1, 1⟩, ⟨2025, 1, 1⟩, "2024"⟩,
             ⟨⟨2024, 5, 1⟩, ⟨2024, 5, 2⟩, "2024-05-01"⟩,
             ⟨⟨2024, 6, 30⟩, ⟨2024, 7, 1⟩, "2024-06-30"⟩]
    ∧ (extract_entities "entre 2024-05-01 y 2024-06-30" refDate).map
        (fun e => e.date_ranges.length) = .ok 3 := by
  decide

/-- C6: for the non-empty question "zzz" no weighted pattern matches and the
prefix rule does not fire, yet the detector returns intent Count (not List)
with confidence 0.51: `_best` only filters the `UNKNOWN` key, never the zero
scores, so the zero-score winner is `COUNT` (the first dict entry) and the
`fallback:list_por_defecto` branch is unreachable for non-empty input. -/
theorem unmatched_question_yields_count :
    detPrefix (detNormalizeL "zzz".data) = false
    ∧ (patHits "COUNT" countPatterns (detNormalizeL "zzz".data)).1 = 0
    ∧ (patHits "LIST" listPatterns (detNormalizeL "zzz".data)).1 = 0
    ∧ (patHits "AGGREGATE" aggregatePatterns (detNormalizeL "zzz".data)).1 = 0
    ∧ (patHits "DESCRIBE" describePatterns (detNormalizeL "zzz".data)).1 = 0
    ∧ (detect "zzz").intent = .COUNT
    ∧ (detect "zzz").confidence = 51/100
    ∧ (detect "zzz").intent ≠ .LIST := by
  decide

/-- C10: when the extracted entities contain statuses but the column selection
has no Status-role column, a Count or List build yields exactly the plan it
would have produced with no statuses at all — no status predicate, no bound
status parameter, and no warning; the status filter is dropped silently. -/
theorem status_filter_dropped_silently (cfg : SqlPlannerConfig) (intent : Intent)
    (dialect : String) (table : TableProfile) (columns : ColumnSelectionResult)
    (entities : ExtractedEntities) (question : String)
    (selectColumns : Option (List String))
    (hi : intent = Intent.COUNT ∨ intent = Intent.LIST)
    (hs : getRole columns .STATUS = none)
    (_hne : entities.statuses ≠ []) :
    build cfg intent dialect table columns entities question selectColumns
      = build cfg intent dialect table columns { entities with statuses := [] }
          question selectColumns := by
  rcases hi with h | h <;> subst h
  · simp only [build, buildCount, hs]
    rw [composeWhere_statusCol_none]
  · simp only [build, buildList, hs]
    rw [composeWhere_statusCol_none]

/-- C10 witness: a concrete Count build with a status but no Status-role
column equals the build with the status removed. -/
theorem status_filter_dropped_silently_witness :
    build {} .COUNT "sqlserver" citaTable citaColumns
        { emptyEntities with statuses := ["cancelada"] } "q" none
      = build {} .COUNT "sqlserver" citaTable citaColumns
          { { emptyEntities with statuses := ["cancelada"] } with statuses := [] }
          "q" none :=
  status_filter_dropped_silently {} .COUNT "sqlserver" citaTable citaColumns
    { emptyEntities with statuses := ["cancelada"] } "q" none
    (Or.inl rfl) (by decide) (by decide)

/-- C8: when the entities contain date ranges but no Date-role column was
chosen, a Count or List plan carries the same SQL and parameters as the plan
built with no date ranges at all (no date predicate is emitted) and records
the drop in its warnings — the filter is never dropped silently. -/
theorem date_filter_dropped_with_warning (cfg : SqlPlannerConfig) (intent : Intent)
    (dialect : String) (table : TableProfile) (columns : ColumnSelectionResult)
    (entities : ExtractedEntities) (question : String)
    (selectColumns : Option (List String)) (p p' : SqlPlan)
    (hi : intent = Intent.COUNT ∨ intent = Intent.LIST)
    (hd : getRole columns .DATE = none)
    (hne : entities.date_ranges ≠ [])
    (h1 : build cfg intent dialect table columns entities question selectColumns = .ok p)
    (h2 : build cfg intent dialect table columns { entities with date_ranges := [] }
            question selectColumns = .ok p') :
    p.sql = p'.sql ∧ p.params_named = p'.params_named ∧ p.params_seq = p'.params_seq
      ∧ p.warnings = "rango_fecha_solicitado_sin_columna_fecha" :: p'.warnings := by
  rcases hi with h | h <;> subst h
  · simp only [build, buildCount, hd] at h1 h2
    rw [composeWhere_dateCol_none _ _ _ hne] at h1
    obtain ⟨pair, hx, hok⟩ := exceptBind_ok h1
    obtain ⟨pair', hx', hok'⟩ := exceptBind_ok h2
    rw [hx] at hx'
    obtain rfl : pair = pair' := by injection hx'
    obtain ⟨fs, seq⟩ := pair
    simp only [] at hok hok'
    injection hok with hp
    injection hok' with hp'
    subst hp hp'
    refine ⟨rfl, rfl, rfl, ?_⟩
    simp [composeWhere_nil_ranges_warns]
  · simp only [build, buildList, hd] at h1 h2
    rw [composeWhere_dateCol_none _ _ _ hne] at h1
    obtain ⟨pair, hx, hok⟩ := exceptBind_ok h1
    obtain ⟨pair', hx', hok'⟩ := exceptBind_ok h2
    rw [hx] at hx'
    obtain rfl : pair = pair' := by injection hx'
    obtain ⟨fs, seq⟩ := pair
    simp only [] at hok hok'
    injection hok with hp
    injection hok' with hp'
    subst hp hp'
    refine ⟨rfl, rfl, rfl, ?_⟩
    simp [composeWhere_nil_ranges_warns]

/-- C8 witness: a concrete Count build over a selection with no Date-role
column, with one extracted date range. -/
theorem date_filter_dropped_with_warning_witness :
    build {} .COUNT "sqlserver" citaTable emptyColumns
        { emptyEntities with date_ranges := [⟨⟨2025, 1, 1⟩, ⟨2026, 1, 1⟩, "2025"⟩] }
        "q" none
      = .ok ⟨"sqlserver", "SELECT COUNT(*) AS total FROM [dbo].[cita]", [], [],
          [("table", .s "dbo.cita"), ("intent", .s "COUNT"),
           ("date_column", .os none), ("status_column", .os none),
           ("question", .s "q"), ("filters", .ls [])],
          ["rango_fecha_solicitado_sin_columna_fecha"]⟩
    ∧ build {} .COUNT "sqlserver" citaTable emptyColumns emptyEntities "q" none
      = .ok ⟨"sqlserver", "SELECT COUNT(*) AS total FROM [dbo].[cita]", [], [],
          [("table", .s "dbo.cita"), ("intent", .s "COUNT"),
           ("date_column", .os none), ("status_column", .os none),
           ("question", .s "q"), ("filters", .ls [])], []⟩
    ∧ ("SELECT COUNT(*) AS total FROM [dbo].[cita]"
          = "SELECT COUNT(*) AS total FROM [dbo].[cita]"
        ∧ ([] : List (String × PValue)) = []
        ∧ ([] : List PValue) = []
        ∧ ["rango_fecha_solicitado_sin_columna_fecha"]
            = "rango_fecha_solicitado_sin_columna_fecha" :: ([] : List String)) :=
  ⟨by decide, by decide,
   date_filter_dropped_with_warning {} .COUNT "sqlserver" citaTable emptyColumns
     { emptyEntities with date_ranges := [⟨⟨2025, 1, 1⟩, ⟨2026, 1, 1⟩, "2025"⟩] }
     "q" none
     ⟨"sqlserver", "SELECT COUNT(*) AS total FROM [dbo].[cita]", [], [],
      [("table", .s "dbo.cita"), ("intent", .s "COUNT"),
       ("date_column", .os none), ("status_column", .os none),
       ("question", .s "q"), ("filters", .ls [])],
      ["rango_fecha_solicitado_sin_columna_fecha"]⟩
     ⟨"sqlserver", "SELECT COUNT(*) AS total FROM [dbo].[cita]", [], [],
      [("table", .s "dbo.cita"), ("intent", .s "COUNT"),
       ("date_column", .os none), ("status_column", .os none),
       ("question", .s "q"), ("filters", .ls [])], []⟩
     (Or.inl rfl) (by decide) (by decide) (by decide) (by decide)⟩

/-- C9: on sqlite every Describe plan's SQL begins with `PRAGMA`, and
validating such a plan against any catalog yields `ok = false` with an
error-level `not_select` issue, so the orchestrator's `validation.ok` gate
never lets it execute. -/
theorem sqlite_describe_starts_pragma_and_fails_validation
    (cfg : SqlPlannerConfig) (table : TableProfile) (columns : ColumnSelectionResult)
    (catalog : SchemaCatalog) (entities : ExtractedEntities) (question : String)
    (selectColumns : Option (List String)) (plan : SqlPlan)
    (h : build cfg .DESCRIBE "sqlite" table columns entities question selectColumns
          = .ok plan) :
    (∃ rest, plan.sql.data = "PRAGMA".data ++ rest)
    ∧ (validate plan catalog table columns).ok = false
    ∧ (⟨"error", "not_select", "El plan SQL no parece ser una consulta SELECT/WITH.",
        []⟩ : ValidationIssue) ∈ (validate plan catalog table columns).issues := by
  simp only [build, buildDescribe, finalizeSql] at h
  simp only [reduceIte, String.reduceEq, if_true, if_false] at h
  injection h with hp
  subst hp
  have hss : startsSelectOrWith
      ("PRAGMA table_info(" ++ quoteIdent "sqlite" table.name ++ ")") = false := by
    unfold startsSelectOrWith
    rw [show ("PRAGMA table_info(" ++ quoteIdent "sqlite" table.name ++ ")").data
        = 'P' :: ("RAGMA table_info(".data
            ++ (quoteIdent "sqlite" table.name ++ ")").data) from rfl]
    simp [lowerList, List.isPrefixOf, isSpaceChar]
  refine ⟨⟨(" table_info(" ++ quoteIdent "sqlite" table.name ++ ")").data, rfl⟩, ?_, ?_⟩
  · simp [validate, hss]
  · simp [validate, hss]

/-- C9 witness: the concrete sqlite Describe plan for `dbo.cita`. -/
theorem sqlite_describe_witness :
    (∃ rest, (⟨"sqlite", "PRAGMA table_info(\"cita\")", [], [],
        [("table", .s "dbo.cita"), ("intent", .s "DESCRIBE")], []⟩ : SqlPlan).sql.data
      = "PRAGMA".data ++ rest)
    ∧ (validate ⟨"sqlite", "PRAGMA table_info(\"cita\")", [], [],
        [("table", .s "dbo.cita"), ("intent", .s "DESCRIBE")], []⟩
        ⟨[]⟩ citaTable citaColumns).ok = false
    ∧ (⟨"error", "not_select", "El plan SQL no parece ser una consulta SELECT/WITH.",
        []⟩ : ValidationIssue)
      ∈ (validate ⟨"sqlite", "PRAGMA table_info(\"cita\")", [], [],
          [("table", .s "dbo.cita"), ("intent", .s "DESCRIBE")], []⟩
          ⟨[]⟩ citaTable citaColumns).issues :=
  sqlite_describe_starts_pragma_and_fails_validation {} citaTable citaColumns
    ⟨[]⟩ emptyEntities "" none _ (by decide)

/-- C5 (amended): a question whose normalized form begins with `cuantas `,
`cuantos ` or `how many ` is classified Count with confidence at least 0.51,
provided Count's total weighted score (the 1.2 prefix bonus plus its matched
pattern weights) is at least every other intent's total — the counterexample
shows other intents can outscore the bonus, so the unconditional claim fails. -/
theorem count_prefix_dominant (q : String)
    (hp : detPrefix (detNormalizeL q.data) = true)
    (hL : (patHits "LIST" listPatterns (detNormalizeL q.data)).1
        ≤ 6/5 + (patHits "COUNT" countPatterns (detNormalizeL q.data)).1)
    (hA : (patHits "AGGREGATE" aggregatePatterns (detNormalizeL q.data)).1
        ≤ 6/5 + (patHits "COUNT" countPatterns (detNormalizeL q.data)).1)
    (hD : (patHits "DESCRIBE" describePatterns (detNormalizeL q.data)).1
        ≤ 6/5 + (patHits "COUNT" countPatterns (detNormalizeL q.data)).1) :
    (detect q).intent = Intent.COUNT ∧ 51/100 ≤ (detect q).confidence := by
  have hblank : ¬ (pyStripList q.data = []) := by
    intro h
    have hz : detNormalizeL q.data = [] := by
      simp [detNormalizeL, h, lowerList, stripAccentsList, replaceList, replaceListF]
    rw [hz] at hp
    simp [detPrefix, List.isPrefixOf] at hp
  simp only [detect, hblank, if_false, hp, if_true]
  rw [best4_count_of_max hL hA hD]
  by_cases hc : confidenceOf (Intent.COUNT, 6/5 + (patHits "COUNT" countPatterns
      (detNormalizeL q.data)).1).1
      (Intent.COUNT, 6/5 + (patHits "COUNT" countPatterns (detNormalizeL q.data)).1).2
      (6/5 + (patHits "COUNT" countPatterns (detNormalizeL q.data)).1)
      (patHits "LIST" listPatterns (detNormalizeL q.data)).1
      (patHits "AGGREGATE" aggregatePatterns (detNormalizeL q.data)).1
      (patHits "DESCRIBE" describePatterns (detNormalizeL q.data)).1 < 3/5
  · simp only [hc, if_true, if_pos]
    simp only [or_true, true_or, if_true, if_pos rfl]
    refine ⟨trivial, round3_ge_half51 ?_⟩
    simp only [qmax]
    split_ifs with hq
    · linarith
    · linarith
  · simp only [hc, if_false, if_neg]
    refine ⟨trivial, round3_ge_half51 ?_⟩
    push_neg at hc
    linarith

/-- C5 witness: "cuantas citas" — the prefix fires, Count's total (2.2)
dominates, and the detector returns Count with confidence at least 0.51. -/
theorem count_prefix_dominant_witness :
    (detect "cuantas citas").intent = Intent.COUNT
    ∧ 51/100 ≤ (detect "cuantas citas").confidence :=
  count_prefix_dominant "cuantas citas" (by decide) (by decide) (by decide) (by decide)

/-- C5 (counterexample to the claim as stated): "cuantos listar muestrame"
begins with "cuantos " after normalization, yet the matched List patterns
(total 1.8) outweigh Count's prefix bonus (1.2), so the detector returns
List, not Count. -/
theorem count_prefix_overridden :
    detPrefix (detNormalizeL "cuantos listar muestrame".data) = true
    ∧ (detect "cuantos listar muestrame").intent = Intent.LIST
    ∧ (detect "cuantos listar muestrame").intent ≠ Intent.COUNT := by
  decide

end MCP

namespace MCP

lemma PyDate.lt_next (d : PyDate) : d.lt d.nextDay := by
  obtain ⟨y, m, dd⟩ := d
  simp only [PyDate.nextDay, PyDate.lt]
  split_ifs <;> simp_all

lemma PyDate.prev_lt (d : PyDate) : d.prevDay.lt d := by
  obtain ⟨y, m, dd⟩ := d
  simp only [PyDate.prevDay, PyDate.lt]
  split_ifs <;> simp_all <;> omega

lemma PyDate.lt_trans {a b c : PyDate} (h1 : a.lt b) (h2 : b.lt c) : a.lt c := by
  obtain ⟨y1, m1, d1⟩ := a; obtain ⟨y2, m2, d2⟩ := b; obtain ⟨y3, m3, d3⟩ := c
  simp only [PyDate.lt] at *
  omega

lemma PyDate.not_lt_cases {a b : PyDate} (h : ¬ a.lt b) : b.lt a ∨ b = a := by
  obtain ⟨y1, m1, d1⟩ := a; obtain ⟨y2, m2, d2⟩ := b
  simp only [PyDate.lt, PyDate.mk.injEq] at *
  omega

lemma nextMonth_lt {y : Int} {m : Nat} {ny : Int} {nm : Nat}
    (h : nextMonth y m = (ny, nm)) (d : Nat) :
    PyDate.lt ⟨y, m, d⟩ ⟨ny, nm, d⟩ := by
  simp only [nextMonth] at h
  split_ifs at h <;> simp_all [PyDate.lt] <;> omega

lemma quarterBounds_lt {y : Int} {q : Nat} {s e : PyDate}
    (h : quarterBounds y q = (s, e)) : s.lt e := by
  unfold quarterBounds at h
  split_ifs at h <;> (injection h with h1 h2; subst h1; subst h2; simp [PyDate.lt])

lemma mkBetweenRange_lt (g1 g2 : List Char) (left right : PyDate) :
    (mkBetweenRange g1 g2 left right).start.lt (mkBetweenRange g1 g2 left right).end_ := by
  unfold mkBetweenRange
  by_cases hb : (right.nextDay).bleD left
  · simp only [hb, if_true, if_pos]
    have h1 : ¬ left.lt right.nextDay := by
      simpa [PyDate.bleD] using hb
    rcases PyDate.not_lt_cases h1 with h2 | h2
    · exact PyDate.lt_trans (PyDate.lt_trans (PyDate.lt_next right) h2) (PyDate.lt_next left)
    · subst h2
      exact PyDate.lt_trans (PyDate.lt_next right) (PyDate.lt_next _)
  · simp only [hb, if_false, if_neg]
    simpa [PyDate.bleD] using hb

end MCP

namespace MCP

lemma scanFuel_mem {α : Type} {P : α → Prop}
    (step : Option Char → List Char → Option (α × Char × List Char))
    (hstep : ∀ prev l a lc r, step prev l = some (a, lc, r) → P a) :
    ∀ (fuel : Nat) (prev : Option Char) (l : List Char) (a : α),
      a ∈ scanFuel step fuel prev l → P a := by
  intro fuel
  induction fuel with
  | zero => intro prev l a h; simp [scanFuel] at h
  | succ n ih =>
    intro prev l a h
    cases l with
    | nil => simp [scanFuel] at h
    | cons c rest =>
      rw [scanFuel] at h
      cases hs : step prev (c :: rest) with
      | none => rw [hs] at h; exact ih _ _ _ h
      | some v =>
        obtain ⟨a', lc, r⟩ := v
        rw [hs] at h
        rcases List.mem_cons.mp h with rfl | hmem
        · exact hstep _ _ _ _ _ hs
        · exact ih _ _ _ hmem

lemma runScan_mem {α : Type} {P : α → Prop}
    (step : Option Char → List Char → Option (α × Char × List Char))
    (hstep : ∀ prev l a lc r, step prev l = some (a, lc, r) → P a)
    (l : List Char) (a : α) (h : a ∈ runScan step l) : P a :=
  scanFuel_mem step hstep _ _ _ _ h

lemma yearStep_lt (prev : Option Char) (l : List Char) (a : DateRange) (lc : Char)
    (r : List Char) (h : yearStep prev l = some (a, lc, r)) : a.start.lt a.end_ := by
  unfold yearStep at h
  split_ifs at h
  cases hty : takeYear l with
  | none => rw [hty] at h; simp at h
  | some v =>
    obtain ⟨y, lc', rest⟩ := v
    simp only [hty] at h
    split_ifs at h
    injection h with h1
    injection h1 with ha
    subst ha
    simp [PyDate.lt]

lemma extractYears_lt (l : List Char) (a : DateRange) (h : a ∈ extractYears l) :
    a.start.lt a.end_ :=
  runScan_mem yearStep yearStep_lt l a h

end MCP

namespace MCP

lemma monthYearStep_lt (prev : Option Char) (l : List Char) (o : Option DateRange)
    (lc : Char) (r : List Char) (h : monthYearStep prev l = some (o, lc, r)) :
    ∀ rr, o = some rr → rr.start.lt rr.end_ := by
  unfold monthYearStep at h
  split_ifs at h
  cases hfa : firstAlt monthAlts l with
  | none => rw [hfa] at h; simp at h
  | some v =>
    obtain ⟨raw, r1⟩ := v
    simp only [hfa] at h
    cases hcy : connectorYear true r1 with
    | none => rw [hcy] at h; simp at h
    | some w =>
      obtain ⟨y, lc', rest⟩ := w
      simp only [hcy] at h
      split_ifs at h with hmon
      · injection h with h1
        injection h1 with ho
        subst ho
        intro rr hrr
        exact absurd hrr (by simp)
      · rcases hnm : nextMonth (y : Int)
            (monthsGet ⟨stripAccentsList (lowerList (pyStripList
              (replaceList ['m', 'a', 'y'] ['m', 'a', 'y', 'o'] raw.data)))⟩) with ⟨ny, nm⟩
        rw [hnm] at h
        injection h with h1
        injection h1 with ho
        subst ho
        intro rr hrr
        injection hrr with hrr2
        subst hrr2
        exact nextMonth_lt hnm 1

lemma extractMonthYear_lt (l : List Char) (a : DateRange) (h : a ∈ extractMonthYear l) :
    a.start.lt a.end_ := by
  unfold extractMonthYear at h
  rw [List.mem_filterMap] at h
  obtain ⟨o, hmem, hoa⟩ := h
  exact runScan_mem monthYearStep monthYearStep_lt l o hmem a hoa

lemma mkQuarterRange_lt (q y : Nat) : (mkQuarterRange q y).start.lt (mkQuarterRange q y).end_ := by
  unfold mkQuarterRange
  rcases hq : quarterBounds (y : Int) q with ⟨s, e⟩
  simpa using quarterBounds_lt hq

lemma quarterStep1_lt (prev : Option Char) (l : List Char) (a : DateRange) (lc : Char)
    (r : List Char) (h : quarterStep1 prev l = some (a, lc, r)) : a.start.lt a.end_ := by
  unfold quarterStep1 at h
  split_ifs at h
  cases l with
  | nil => simp at h
  | cons c rest =>
    simp only [] at h
    split_ifs at h
    cases hqd : quarterDigit (skipSpaces rest) with
    | none => rw [hqd] at h; simp at h
    | some v =>
      obtain ⟨q, r2⟩ := v
      simp only [hqd] at h
      cases hty : takeYear (skipSpaces r2) with
      | none => rw [hty] at h; simp at h
      | some w =>
        obtain ⟨y, lc', rest'⟩ := w
        simp only [hty] at h
        split_ifs at h
        injection h with h1
        injection h1 with ha
        subst ha
        exact mkQuarterRange_lt _ _

lemma quarterStep2_lt (prev : Option Char) (l : List Char) (a : DateRange) (lc : Char)
    (r : List Char) (h : quarterStep2 prev l = some (a, lc, r)) : a.start.lt a.end_ := by
  unfold quarterStep2 at h
  split_ifs at h
  cases hqd : quarterDigit l with
  | none => rw [hqd] at h; simp at h
  | some v =>
    obtain ⟨q, r1⟩ := v
    simp only [hqd] at h
    split_ifs at h
    cases hsp : stripPre ['t', 'r', 'i', 'm', 'e', 's', 't', 'r', 'e'] _ with
    | none => rw [hsp] at h; simp at h
    | some r4 =>
      simp only [hsp] at h
      cases hcy : connectorYear false r4 with
      | none => rw [hcy] at h; simp at h
      | some w =>
        obtain ⟨y, lc', rest'⟩ := w
        simp only [hcy] at h
        injection h with h1
        injection h1 with ha
        subst ha
        exact mkQuarterRange_lt _ _

lemma quarterStep3_lt (prev : Option Char) (l : List Char) (a : DateRange) (lc : Char)
    (r : List Char) (h : quarterStep3 prev l = some (a, lc, r)) : a.start.lt a.end_ := by
  unfold quarterStep3 at h
  split_ifs at h
  cases hsp : stripPre ['t', 'r', 'i', 'm', 'e', 's', 't', 'r', 'e'] l with
  | none => rw [hsp] at h; simp at h
  | some r1 =>
    simp only [hsp] at h
    cases hqd : quarterDigit (skipSpaces r1) with
    | none => rw [hqd] at h; simp at h
    | some v =>
      obtain ⟨q, r2⟩ := v
      simp only [hqd] at h
      cases hcy : connectorYear false r2 with
      | none => rw [hcy] at h; simp at h
      | some w =>
        obtain ⟨y, lc', rest'⟩ := w
        simp only [hcy] at h
        injection h with h1
        injection h1 with ha
        subst ha
        exact mkQuarterRange_lt _ _

lemma extractQuarters_lt (l : List Char) (a : DateRange) (h : a ∈ extractQuarters l) :
    a.start.lt a.end_ := by
  unfold extractQuarters at h
  rcases List.mem_append.mp h with h2 | h2
  · rcases List.mem_append.mp h2 with h3 | h3
    · exact runScan_mem quarterStep1 quarterStep1_lt l a h3
    · exact runScan_mem quarterStep2 quarterStep2_lt l a h3
  · exact runScan_mem quarterStep3 quarterStep3_lt l a h2

end MCP

namespace MCP

lemma scanBetween_lt :
    ∀ (fuel : Nat) (prev : Option Char) (l : List Char) (rs : List DateRange)
      (r : DateRange), scanBetween fuel prev l = .ok rs → r ∈ rs →
      r.start.lt r.end_ := by
  intro fuel
  induction fuel with
  | zero =>
    intro prev l rs r h hm
    simp only [scanBetween] at h
    injection h with h1
    subst h1
    simp at hm
  | succ n ih =>
    intro prev l rs r h hm
    cases l with
    | nil =>
      simp only [scanBetween] at h
      injection h with h1
      subst h1
      simp at hm
    | cons c rest =>
      rw [scanBetween] at h
      cases hbs : betweenStep prev (c :: rest) with
      | none =>
        rw [hbs] at h
        exact ih _ _ _ _ h hm
      | some v =>
        obtain ⟨⟨g1, g2⟩, lc, rest'⟩ := v
        rw [hbs] at h
        obtain ⟨lres, hx1, h⟩ := exceptBind_ok h
        obtain ⟨rres, hx2, h⟩ := exceptBind_ok h
        obtain ⟨tailRs, hx3, h⟩ := exceptBind_ok h
        cases lres with
        | none =>
          cases rres <;> simp only [] at h <;>
            (injection h with h1; subst h1; exact ih _ _ _ _ hx3 hm)
        | some left =>
          cases rres with
          | none =>
            simp only [] at h
            injection h with h1
            subst h1
            exact ih _ _ _ _ hx3 hm
          | some right =>
            simp only [] at h
            injection h with h1
            subst h1
            rcases List.mem_cons.mp hm with rfl | hmem
            · exact mkBetweenRange_lt _ _ _ _
            · exact ih _ _ _ _ hx3 hmem

lemma extractBetweenRanges_lt (l : List Char) (rs : List DateRange) (r : DateRange)
    (h : extractBetweenRanges l = .ok rs) (hm : r ∈ rs) : r.start.lt r.end_ :=
  scanBetween_lt _ _ _ _ _ h hm

lemma dedupRanges_subset :
    ∀ (l : List DateRange) (seen : List (PyDate × PyDate)) (r : DateRange),
      r ∈ dedupRanges seen l → r ∈ l := by
  intro l
  induction l with
  | nil => intro seen r h; simp [dedupRanges] at h
  | cons x rest ih =>
    intro seen r h
    rw [dedupRanges] at h
    split_ifs at h
    · exact List.mem_cons_of_mem _ (ih _ _ h)
    · rcases List.mem_cons.mp h with rfl | hmem
      · exact List.mem_cons_self _ _
      · exact List.mem_cons_of_mem _ (ih _ _ hmem)

lemma nextMonth_ltp (y : Int) (m : Nat) (d : Nat) :
    PyDate.lt ⟨y, m, d⟩ ⟨(nextMonth y m).1, (nextMonth y m).2, d⟩ := by
  rcases hnm : nextMonth y m with ⟨ny, nm⟩
  exact nextMonth_lt hnm d

lemma quarterBounds_ltp (y : Int) (q : Nat) :
    (quarterBounds y q).1.lt (quarterBounds y q).2 := by
  rcases hq : quarterBounds y q with ⟨s, e⟩
  exact quarterBounds_lt hq

lemma relRanges_lt (t : List Char) (today : PyDate) (r : DateRange)
    (h : r ∈ relRanges t today) : r.start.lt r.end_ := by
  unfold relRanges at h
  simp only [List.mem_append] at h
  rcases h with ((((((((((h | h) | h) | h) | h) | h) | h) | h) | h) | h) | h) <;>
    split_ifs at h <;>
    first
      | (rw [List.mem_singleton] at h
         subst h
         first
           | exact PyDate.lt_next _
           | exact PyDate.prev_lt _
           | exact nextMonth_ltp _ _ _
           | exact quarterBounds_ltp _ _
           | simp [PyDate.lt])
      | simp at h

end MCP

namespace MCP

/-- C2: for every question and every valid reference date, every `DateRange`
in the list returned by `extract_entities` satisfies `end > start`, including
the ranges produced by the between/del/desde parser when the two sides are
reversed or equal. -/
theorem extracted_ranges_end_gt_start (q : String) (today : PyDate)
    (e : ExtractedEntities) (r : DateRange) (_hv : today.Valid)
    (h : extract_entities q today = .ok e) (hm : r ∈ e.date_ranges) :
    r.start.lt r.end_ := by
  unfold extract_entities at h
  split_ifs at h with hb
  · injection h with h1
    subst h1
    simp at hm
  · obtain ⟨between, hx1, h⟩ := exceptBind_ok h
    obtain ⟨explicit, hx2, h⟩ := exceptBind_ok h
    injection h with h1
    subst h1
    have hall := dedupRanges_subset _ _ _ hm
    simp only [List.mem_append] at hall
    rcases hall with ((((hb1 | hb2) | hb3) | hb4) | hb5) | hb6
    · exact extractBetweenRanges_lt _ _ _ hx1 hb1
    · exact extractMonthYear_lt _ _ hb2
    · exact extractQuarters_lt _ _ hb3
    · exact extractYears_lt _ _ hb4
    · rw [List.mem_map] at hb5
      obtain ⟨d, _hd, hrd⟩ := hb5
      subst hrd
      exact PyDate.lt_next d
    · exact relRanges_lt _ _ _ hb6

/-- C2 witness: the invariant instantiated at the question `2025` with
reference date 2025-03-10, whose single extracted range is the year 2025. -/
theorem extracted_ranges_end_gt_start_witness :
    (⟨2025, 3, 10⟩ : PyDate).Valid
    ∧ PyDate.lt (⟨2025, 1, 1⟩ : PyDate) (⟨2026, 1, 1⟩ : PyDate) :=
  ⟨by decide,
   extracted_ranges_end_gt_start "2025" ⟨2025, 3, 10⟩
     ⟨"2025", [⟨⟨2025, 1, 1⟩, ⟨2026, 1, 1⟩, "2025"⟩], .YEAR, [], none, none, ["anios"]⟩
     ⟨⟨2025, 1, 1⟩, ⟨2026, 1, 1⟩, "2025"⟩
     (by decide) (by decide) (by decide)⟩

end MCP

namespace MCP

lemma count_takeWhile_drop (p : Char → Bool) (a : Char) (l : List Char) :
    l.count a = (l.takeWhile p).count a
      + (l.drop (l.takeWhile p).length).count a := by
  induction l with
  | nil => simp
  | cons c rest ih =>
    by_cases hp : p c
    · simp only [List.takeWhile_cons, hp, if_true, List.length_cons,
        List.drop_succ_cons, List.count_cons]
      omega
    · simp [List.takeWhile_cons, hp]

lemma namedToQmarkF_count (params : List (String × PValue)) :
    ∀ (fuel : Nat) (l l' : List Char) (seq : List PValue),
      namedToQmarkF params fuel l = .ok (l', seq) →
      l'.count '?' = l.count '?' + seq.length := by
  intro fuel
  induction fuel with
  | zero =>
    intro l l' seq h
    simp only [namedToQmarkF] at h
    injection h with h1
    injection h1 with h2 h3
    subst h2; subst h3
    simp
  | succ n ih =>
    intro l l' seq h
    cases l with
    | nil =>
      simp only [namedToQmarkF] at h
      injection h with h1
      injection h1 with h2 h3
      subst h2; subst h3
      simp
    | cons c0 rest =>
      rw [show namedToQmarkF params (n+1) (c0 :: rest)
          = if c0 = ':' then _ else _ from rfl] at h
      by_cases hc0 : c0 = ':'
      · rw [if_pos hc0] at h
        subst hc0
        cases rest with
        | nil =>
          injection h with h1
          injection h1 with h2 h3
          subst h2; subst h3
          decide
        | cons c cs =>
          dsimp only at h
          split_ifs at h with hid
          · cases hf : params.find?
                (fun p => p.1 = (⟨c :: cs.takeWhile isIdentChar⟩ : String)) with
            | none => simp only [hf] at h; simp at h
            | some p =>
              simp only [hf] at h
              obtain ⟨⟨s', sq⟩, hx, hok⟩ := exceptBind_ok h
              injection hok with h1
              injection h1 with h2 h3
              subst h2; subst h3
              have hrec := ih _ _ _ hx
              have htw : (cs.takeWhile isIdentChar).count '?' = 0 := by
                rw [List.count_eq_zero]
                intro hmem
                have := List.mem_takeWhile_imp hmem
                simp [isIdentChar, isIdentStart] at this
              have hsplit := count_takeWhile_drop isIdentChar '?' cs
              have hc : c ≠ '?' := by
                rintro rfl
                simp [isIdentStart] at hid
              simp only [List.count_cons, List.length_cons]
              rw [hrec]
              simp [hsplit, htw, hc]
              omega
          · obtain ⟨⟨s', sq⟩, hx, hok⟩ := exceptBind_ok h
            injection hok with h1
            injection h1 with h2 h3
            subst h2; subst h3
            have hrec := ih _ _ _ hx
            simp only [List.count_cons] at *
            omega
      · rw [if_neg hc0] at h
        obtain ⟨⟨s', sq⟩, hx, hok⟩ := exceptBind_ok h
        injection hok with h1
        injection h1 with h2 h3
        subst h2; subst h3
        have hrec := ih _ _ _ hx
        simp only [List.count_cons] at *
        omega

lemma namedToQmark_count (params : List (String × PValue)) (l l' : List Char)
    (seq : List PValue) (h : namedToQmark params l = .ok (l', seq)) :
    l'.count '?' = l.count '?' + seq.length :=
  namedToQmarkF_count params _ l l' seq h

end MCP

namespace MCP

abbrev NoQ (s : String) : Prop := '?' ∉ s.data

lemma noq_append {s t : String} (hs : NoQ s) (ht : NoQ t) : NoQ (s ++ t) := by
  simp only [NoQ] at *
  intro hmem
  rcases List.mem_append.mp hmem with h | h
  · exact hs h
  · exact ht h

lemma noq_digitChar (n : Nat) : digitChar n ≠ '?' := by
  unfold digitChar
  split_ifs <;> decide

lemma noq_natCharsF : ∀ (fuel n : Nat), '?' ∉ natCharsF fuel n := by
  intro fuel
  induction fuel with
  | zero => intro n; simp [natCharsF]
  | succ f ih =>
    intro n
    rw [natCharsF]
    split_ifs
    · intro hmem
      rw [List.mem_singleton] at hmem
      exact noq_digitChar n hmem.symm
    · intro hmem
      rcases List.mem_append.mp hmem with h | h
      · exact ih _ h
      · rw [List.mem_singleton] at h
        exact noq_digitChar _ h.symm

lemma noq_natToStr (n : Nat) : NoQ (natToStr n) := noq_natCharsF _ n

lemma noq_intToStr (i : Int) : NoQ (intToStr i) := by
  unfold intToStr
  split_ifs
  · exact noq_append (by decide) (noq_natToStr _)
  · exact noq_natToStr _

lemma noq_replaceListF {rep : List Char} (hrep : '?' ∉ rep) :
    ∀ (fuel : Nat) (pat l : List Char), '?' ∉ l → '?' ∉ replaceListF fuel pat rep l := by
  intro fuel
  induction fuel with
  | zero =>
    intro pat l hl
    rw [replaceListF]
    exact hl
  | succ f ih =>
    intro pat l hl
    match pat, l with
    | _, [] =>
      rw [replaceListF]
      simp
    | [], c :: rest =>
      rw [replaceListF]
      exact hl
      simp
    | p :: ps, c :: rest =>
      rw [replaceListF]
      split_ifs
      · intro hmem
        rcases List.mem_append.mp hmem with h | h
        · exact hrep h
        · have hdrop : '?' ∉ rest.drop ps.length := fun hx =>
            hl (List.mem_cons_of_mem _ (List.mem_of_mem_drop hx))
          exact ih _ _ hdrop h
      · intro hmem
        rcases List.mem_cons.mp hmem with h | h
        · exact hl (h ▸ List.mem_cons_self _ _)
        · exact ih _ _ (fun hx => hl (List.mem_cons_of_mem _ hx)) h

lemma noq_replaceList {rep pat : List Char} {l : List Char} (hrep : '?' ∉ rep)
    (hl : '?' ∉ l) : '?' ∉ replaceList pat rep l :=
  noq_replaceListF hrep _ _ _ hl

lemma noq_quoteIdent {d s : String} (hs : NoQ s) : NoQ (quoteIdent d s) := by
  unfold quoteIdent
  split_ifs
  · exact noq_append (noq_append (by decide) (noq_replaceList (by decide) hs)) (by decide)
  · exact noq_append (noq_append (by decide) (noq_replaceList (by decide) hs)) (by decide)

lemma noq_quoteTable {d sch tbl : String} (hsch : NoQ sch) (htbl : NoQ tbl) :
    NoQ (quoteTable d sch tbl) := by
  unfold quoteTable
  split_ifs
  · exact noq_append (noq_append (noq_quoteIdent hsch) (by decide)) (noq_quoteIdent htbl)
  · exact noq_quoteIdent htbl

lemma noq_joinSep {sep : String} (hsep : NoQ sep) :
    ∀ (parts : List String), (∀ p ∈ parts, NoQ p) → NoQ (joinSep sep parts) := by
  intro parts
  induction parts with
  | nil => intro _; simp [joinSep, NoQ]
  | cons x rest ih =>
    intro hall
    cases rest with
    | nil => simpa [joinSep] using hall x (by simp)
    | cons y more =>
      rw [joinSep]
      refine noq_append (noq_append (hall x (by simp)) hsep) (ih ?_)
      intro p hp
      exact hall p (List.mem_cons_of_mem _ hp)

lemma noq_pad2 (n : Nat) : NoQ (pad2 n) := by
  unfold pad2
  split_ifs
  · exact noq_append (by decide) (noq_natToStr _)
  · exact noq_natToStr _

lemma noq_pad4 (n : Nat) : NoQ (pad4 n) := by
  unfold pad4
  split_ifs <;> exact noq_append (by decide) (noq_natToStr _)

lemma noq_isoformat (d : PyDate) : NoQ d.isoformat := by
  unfold PyDate.isoformat
  exact noq_append (noq_append (noq_append (noq_append (noq_pad4 _) (by decide))
    (noq_pad2 _)) (by decide)) (noq_pad2 _)

lemma getRole_mem {cs : ColumnSelectionResult} {r : ColumnRole} {col : ColumnSnapshot}
    (h : getRole cs r = some col) : ∃ p ∈ cs.choices, p.2.column = some col := by
  unfold getRole getChoice at h
  cases hf : cs.choices.find? (fun p => p.1 = r) with
  | none => rw [hf] at h; simp at h
  | some p =>
    rw [hf] at h
    simp only [Option.map_some'] at h
    exact ⟨p, List.mem_of_find?_eq_some hf, h⟩

lemma noq_quoted_list {d : String} {names : List String}
    (h : ∀ s ∈ names, NoQ s) : NoQ (joinSep ", " (names.map (quoteIdent d))) := by
  refine noq_joinSep (by decide) _ ?_
  intro p hp
  rcases List.mem_map.mp hp with ⟨x, hx, rfl⟩
  exact noq_quoteIdent (h x hx)

lemma noq_datePart {d : String} {col : ColumnSnapshot} (hc : NoQ col.name)
    (rs : List DateRange) :
    NoQ ("(" ++ joinSep " OR "
      (rs.enum.map (fun p =>
        quoteIdent d col.name ++ " >= :start_" ++ natToStr p.1 ++ " AND " ++
        quoteIdent d col.name ++ " < :end_" ++ natToStr p.1)) ++ ")") := by
  have hqn : NoQ (quoteIdent d col.name) := noq_quoteIdent hc
  refine noq_append (noq_append (by decide) ?_) (by decide)
  refine noq_joinSep (by decide) _ ?_
  intro p hp
  rcases List.mem_map.mp hp with ⟨x, _, rfl⟩
  exact noq_append (noq_append (noq_append (noq_append (noq_append (noq_append hqn
    (by decide)) (noq_natToStr _)) (by decide)) hqn) (by decide)) (noq_natToStr _)

lemma noq_statusIn {d : String} {col : ColumnSnapshot} (hc : NoQ col.name)
    (sts : List String) :
    NoQ (quoteIdent d col.name ++ " IN (" ++
      joinSep ", " (sts.enum.map (fun p => ":status_" ++ natToStr p.1)) ++ ")") := by
  refine noq_append (noq_append (noq_append (noq_quoteIdent hc) (by decide)) ?_)
    (by decide)
  refine noq_joinSep (by decide) _ ?_
  intro p hp
  rcases List.mem_map.mp hp with ⟨x, _, rfl⟩
  exact noq_append (by decide) (noq_natToStr _)

lemma noq_composeWhere (d : String) (dateCol statusCol : Option ColumnSnapshot)
    (entities : ExtractedEntities)
    (hd : ∀ c ∈ dateCol, NoQ c.name)
    (hs : ∀ c ∈ statusCol, NoQ c.name) :
    NoQ (composeWhere d dateCol statusCol entities).1 := by
  unfold composeWhere
  by_cases hdr : entities.date_ranges = [] <;>
    by_cases hst : entities.statuses = [] <;>
    rcases dateCol with _ | dcol <;> rcases statusCol with _ | scol <;>
    by_cases h1 : entities.statuses.length = 1 <;>
    simp only [hdr, hst, h1, ne_eq, not_true_eq_false, not_false_eq_true, if_true,
      if_false, ite_true, ite_false, if_neg, if_pos] <;>
    first
      | decide
      | (refine noq_joinSep (by decide) _ ?_
         intro p hp
         simp only [List.mem_append, List.mem_singleton, List.mem_cons,
           List.not_mem_nil, or_false, false_or] at hp
         first
           | (rcases hp with hp | hp <;> subst hp <;>
               first
                 | exact noq_datePart (hd _ rfl) _
                 | exact noq_append (noq_quoteIdent (hs _ rfl)) (by decide)
                 | exact noq_statusIn (hs _ rfl) _)
           | (subst hp
              first
                | exact noq_datePart (hd _ rfl) _
                | exact noq_append (noq_quoteIdent (hs _ rfl)) (by decide)
                | exact noq_statusIn (hs _ rfl) _))

lemma noq_empty : NoQ "" := by decide

lemma finalizeSql_count {sqlNamed : String} {params : List (String × PValue)}
    {finalSql : String} {seq : List PValue}
    (hq : NoQ sqlNamed)
    (h : finalizeSql "sqlserver" sqlNamed params = .ok (finalSql, seq)) :
    finalSql.data.count '?' = seq.length := by
  unfold finalizeSql at h
  rw [if_pos rfl] at h
  cases hnm : namedToQmark params sqlNamed.data with
  | error e => rw [hnm] at h; simp [Except.map] at h
  | ok p =>
    rw [hnm] at h
    simp only [Except.map] at h
    injection h with h
    have hcnt := namedToQmark_count params sqlNamed.data p.1 p.2 hnm
    have hz : sqlNamed.data.count '?' = 0 := List.count_eq_zero.mpr hq
    rw [hz, Nat.zero_add] at hcnt
    have h1 : finalSql = (⟨p.1⟩ : String) := by
      have := congrArg Prod.fst h
      exact this.symm
    have h2 : seq = p.2 := by
      have := congrArg Prod.snd h
      exact this.symm
    rw [h1, h2]
    exact hcnt

lemma noq_whereOpt {w : String} (hw : NoQ w) :
    NoQ (if w ≠ "" then " WHERE " ++ w else "") := by
  split_ifs
  · exact noq_append (by decide) hw
  · decide

lemma buildCount_qmarks (table : TableProfile) (columns : ColumnSelectionResult)
    (entities : ExtractedEntities) (question : String) (plan : SqlPlan)
    (hsch : NoQ table.schema) (hname : NoQ table.name)
    (hchoices : ∀ p ∈ columns.choices, ∀ c ∈ p.2.column, NoQ c.name)
    (h : buildCount "sqlserver" table columns entities question = .ok plan) :
    plan.sql.data.count '?' = plan.params_seq.length := by
  have hd : ∀ c ∈ getRole columns .DATE, NoQ c.name := by
    intro c hc
    rcases getRole_mem hc with ⟨p, hp, hpc⟩
    exact hchoices p hp c hpc
  have hst : ∀ c ∈ getRole columns .STATUS, NoQ c.name := by
    intro c hc
    rcases getRole_mem hc with ⟨p, hp, hpc⟩
    exact hchoices p hp c hpc
  simp only [buildCount] at h
  rcases hcw : composeWhere "sqlserver" (getRole columns .DATE)
      (getRole columns .STATUS) entities with ⟨w, ps, ws⟩
  rw [hcw] at h
  dsimp only at h
  obtain ⟨pair, hx, hok⟩ := exceptBind_ok h
  obtain ⟨fs, seq⟩ := pair
  dsimp only at hok
  injection hok with hplan
  subst hplan
  have hw : NoQ w := by
    have hh := noq_composeWhere "sqlserver" (getRole columns .DATE)
      (getRole columns .STATUS) entities hd hst
    rw [hcw] at hh
    exact hh
  have hnq : NoQ ("SELECT COUNT(*) AS total FROM " ++
      quoteTable "sqlserver" table.schema table.name ++
      (if w ≠ "" then " WHERE " ++ w else "")) :=
    noq_append (noq_append (by decide) (noq_quoteTable hsch hname)) (noq_whereOpt hw)
  exact finalizeSql_count hnq hx

lemma buildDescribe_qmarks (table : TableProfile) (plan : SqlPlan)
    (h : buildDescribe "sqlserver" table = .ok plan) :
    plan.sql.data.count '?' = plan.params_seq.length := by
  simp only [buildDescribe] at h
  rw [if_neg (by decide)] at h
  simp only [if_true] at h
  obtain ⟨pair, hx, hok⟩ := exceptBind_ok h
  obtain ⟨fs, seq⟩ := pair
  dsimp only at hok
  injection hok with hplan
  subst hplan
  exact finalizeSql_count (by decide) hx

lemma buildList_qmarks (cfg : SqlPlannerConfig) (table : TableProfile)
    (columns : ColumnSelectionResult) (entities : ExtractedEntities)
    (question : String) (selectColumns : Option (List String)) (plan : SqlPlan)
    (hsch : NoQ table.schema) (hname : NoQ table.name)
    (htcols : ∀ c ∈ table.columns, NoQ c.name)
    (hchoices : ∀ p ∈ columns.choices, ∀ c ∈ p.2.column, NoQ c.name)
    (hsel : ∀ s ∈ selectColumns.getD [], NoQ s)
    (h : buildList cfg "sqlserver" table columns entities question selectColumns
          = .ok plan) :
    plan.sql.data.count '?' = plan.params_seq.length := by
  have hd : ∀ c ∈ getRole columns .DATE, NoQ c.name := by
    intro c hc
    rcases getRole_mem hc with ⟨p, hp, hpc⟩
    exact hchoices p hp c hpc
  have hst : ∀ c ∈ getRole columns .STATUS, NoQ c.name := by
    intro c hc
    rcases getRole_mem hc with ⟨p, hp, hpc⟩
    exact hchoices p hp c hpc
  have hid : ∀ c ∈ getRole columns .ID, NoQ c.name := by
    intro c hc
    rcases getRole_mem hc with ⟨p, hp, hpc⟩
    exact hchoices p hp c hpc
  simp only [buildList] at h
  rcases hcw : composeWhere "sqlserver" (getRole columns .DATE)
      (getRole columns .STATUS) entities with ⟨w, ps, ws⟩
  rw [hcw] at h
  dsimp only at h
  simp only [if_true] at h
  have hw : NoQ w := by
    have hh := noq_composeWhere "sqlserver" (getRole columns .DATE)
      (getRole columns .STATUS) entities hd hst
    rw [hcw] at hh
    exact hh
  have htake : ∀ s ∈ (table.columns.map (fun c => c.name)).take
      cfg.max_select_columns, NoQ s := by
    intro x hx
    rcases List.mem_map.mp (List.take_subset _ _ hx) with ⟨c, hc, rfl⟩
    exact htcols c hc
  rcases hoc : (if (getRole columns .DATE).isSome && cfg.prefer_order_by_date then
        (((getRole columns .DATE).map (fun c => c.name)), "DESC")
      else if (getRole columns .ID).isSome then
        (((getRole columns .ID).map (fun c => c.name)), "DESC")
      else ((none : Option String), "ASC")) with ⟨oc, od⟩
  rw [hoc] at h
  dsimp only at h
  have hoq : ∀ o ∈ oc, NoQ o := by
    intro o ho
    split_ifs at hoc with h1 h2
    · have : ((getRole columns .DATE).map (fun c => c.name)) = oc := by
        have := congrArg Prod.fst hoc
        exact this
      rw [← this] at ho
      rcases Option.map_eq_some'.mp ho with ⟨c, hc, rfl⟩
      exact hd c hc
    · have : ((getRole columns .ID).map (fun c => c.name)) = oc := by
        have := congrArg Prod.fst hoc
        exact this
      rw [← this] at ho
      rcases Option.map_eq_some'.mp ho with ⟨c, hc, rfl⟩
      exact hid c hc
    · have : (none : Option String) = oc := by
        have := congrArg Prod.fst hoc
        exact this
      rw [← this] at ho
      simp at ho
  have hodq : NoQ od := by
    split_ifs at hoc with hb1 hb2
    · have h3 : ("DESC" : String) = od := congrArg Prod.snd hoc
      rw [← h3]
      decide
    · have h3 : ("DESC" : String) = od := congrArg Prod.snd hoc
      rw [← h3]
      decide
    · have h3 : ("ASC" : String) = od := congrArg Prod.snd hoc
      rw [← h3]
      decide
  obtain ⟨pair, hx, hok⟩ := exceptBind_ok h
  obtain ⟨fs, seq⟩ := pair
  dsimp only at hok
  injection hok with hplan
  subst hplan
  refine finalizeSql_count ?_ hx
  refine noq_append (noq_append (noq_append (noq_append (noq_append (noq_append
    (noq_append (by decide) (noq_intToStr _)) (by decide)) ?_) (by decide))
    (noq_quoteTable hsch hname)) (noq_whereOpt hw)) ?_
  · clear hx h hoc
    rcases selectColumns with _ | scs
    · exact noq_quoted_list htake
    · dsimp only
      split_ifs
      · exact noq_quoted_list (by simpa using hsel)
      · exact noq_quoted_list htake
  · clear hx h hoc
    rcases oc with _ | o
    · exact noq_empty
    · exact noq_append (noq_append (noq_append (by decide)
        (noq_quoteIdent (hoq o rfl))) (by decide)) hodq

/-- C4 (amended): for every plan the planner builds on the sqlserver dialect,
over every intent, table profile, column selection, entities, question and
explicit column list, PROVIDED none of the identifiers that reach the SQL text
(the table schema and name, the profiled column names, the chosen role columns
and the explicit select columns) contains a literal question mark, the number
of `?` characters in the final SQL text equals the length of the positional
parameter list.  The proviso is necessary: see the counterexample below. -/
theorem sqlserver_qmarks_match_params
    (cfg : SqlPlannerConfig) (intent : Intent) (table : TableProfile)
    (columns : ColumnSelectionResult) (entities : ExtractedEntities)
    (question : String) (selectColumns : Option (List String)) (plan : SqlPlan)
    (hsch : NoQ table.schema) (hname : NoQ table.name)
    (htcols : ∀ c ∈ table.columns, NoQ c.name)
    (hchoices : ∀ p ∈ columns.choices, ∀ c ∈ p.2.column, NoQ c.name)
    (hsel : ∀ s ∈ selectColumns.getD [], NoQ s)
    (h : build cfg intent "sqlserver" table columns entities question selectColumns
          = .ok plan) :
    plan.sql.data.count '?' = plan.params_seq.length := by
  cases intent with
  | COUNT =>
    exact buildCount_qmarks table columns entities question plan hsch hname
      hchoices h
  | LIST =>
    exact buildList_qmarks cfg table columns entities question selectColumns
      plan hsch hname htcols hchoices hsel h
  | AGGREGATE => simp [build] at h
  | DESCRIBE => exact buildDescribe_qmarks table plan h
  | UNKNOWN =>
    exact buildList_qmarks cfg table columns entities question selectColumns
      plan hsch hname htcols hchoices hsel h

/-- C4 witness: the scenario-A count plan satisfies the placeholder/parameter
equation, obtained by instantiating the general theorem. -/
theorem sqlserver_qmarks_match_params_witness :
    build {} .COUNT "sqlserver" citaTable citaColumns scenarioAEntities
        scenarioAQuestion none = .ok scenarioAPlan
      ∧ scenarioAPlan.sql.data.count '?' = scenarioAPlan.params_seq.length :=
  ⟨by decide,
   sqlserver_qmarks_match_params {} .COUNT citaTable citaColumns
     scenarioAEntities scenarioAQuestion none scenarioAPlan (by decide)
     (by decide) (by decide) (by decide) (by decide) (by decide)⟩

/-- C4 counterexample: a table named `t?` (a literal question mark in the
identifier) yields a sqlserver count plan whose SQL text contains one `?` but
whose positional parameter list is empty, refuting the claim as stated over
every table profile. -/
theorem qmark_identifier_breaks_count :
    build {} .COUNT "sqlserver" qmTable emptyColumns emptyEntities "" none
        = .ok qmPlan
      ∧ qmPlan.sql.data.count '?' ≠ qmPlan.params_seq.length := by
  decide

end MCP
